import Mathlib

set_option maxRecDepth 16384

/-!
Verification development for the feishu-bot conversation dispatch engine.

This file shallow-embeds the Python source of the repository into Lean 4:

* `app/main.py` — event dedup (`is_event_processed`), the orchestrator
  decision tree (`handle_message_event`), silence heuristic
  (`should_zip_reply`), proactive scoring (`basic_engage_score`), the
  draw pipeline entry (`handle_draw_request`) and the thinking-timer
  combinator (`run_with_thinking`).
* `app/db.py` — per-chat settings repository (`get_or_create_settings`,
  `update_settings_threshold`, `update_settings_mode`).
* `app/semantic_intent.py` — classifier-response parsing
  (`classify_intent`, `_try_extract_json`).
* `app/image_gen.py` — aspect-ratio snapping
  (`_convert_size_to_aspect_ratio`) and the error branching of
  `generate_image`.
* `app/feishu_api.py` — `mentioned_bot` and the shapes of the outbound
  chat calls, modelled as an `Act` trace.

Modelling conventions:
* Python floats are modelled as rationals (`ℚ`); `time.time()` as a `Nat`
  clock supplied by the environment.
* Python `str` operations are re-implemented over `List Char`
  (code points), matching CPython semantics for the inputs that occur.
* The Python standard-library `json` module (an external dependency of
  `semantic_intent.py`) is modelled by a small strict JSON parser below;
  it covers objects, arrays, strings with escapes, numbers, booleans and
  null, i.e. the grammar `json.loads` accepts (the rarely used
  `NaN`/`Infinity` extensions are not modelled).
* Network and database I/O results are supplied by an `Env` oracle; the
  outbound effects of a handler run are collected as a `List Act`.
-/

/-! ## Python string primitives (over code-point lists) -/

/-- Python whitespace test for `str.strip` / `str.split`. -/
def isPyWs (c : Char) : Bool :=
  c = ' ' || c = '\t' || c = '\n' || c = '\r' || c = '\x0b' || c = '\x0c'

/-- `pat` is a leading segment of `l` (Python `startswith` on lists). -/
def listLeads : List Char → List Char → Bool
  | [], _ => true
  | _ :: _, [] => false
  | p :: ps, c :: cs => (p == c) && listLeads ps cs

/-- Python substring containment `pat in l`. -/
def listHasSub (pat : List Char) : List Char → Bool
  | [] => pat.isEmpty
  | c :: cs => listLeads pat (c :: cs) || listHasSub pat cs

/-- Python `needle in hay` for strings. -/
def strContains (hay needle : String) : Bool :=
  listHasSub needle.toList hay.toList

/-- Python `s.startswith(pat)`. -/
def strLeads (pat s : String) : Bool :=
  listLeads pat.toList s.toList

/-- Python `s.strip()` on a code-point list. -/
def listStrip (l : List Char) : List Char :=
  ((l.dropWhile isPyWs).reverse.dropWhile isPyWs).reverse

/-- Python `s.strip()`. -/
def pyStrip (s : String) : String :=
  String.mk (listStrip s.toList)

/-- Python `s.lower()` (ASCII case fold; the command keywords are ASCII,
and CJK characters are unaffected by either implementation). -/
def pyToLower (s : String) : String :=
  String.mk (s.toList.map Char.toLower)

/-- Python `s[:n]` (truncation by code points). -/
def pyTake (n : Nat) (s : String) : String :=
  String.mk (s.toList.take n)

/-- Helper for Python `s.split()`: accumulate the current chunk
(reversed) and cut at whitespace runs. -/
def splitWsAux : List Char → List Char → List String
  | [], acc => if acc.isEmpty then [] else [String.mk acc.reverse]
  | c :: rest, acc =>
    if isPyWs c then
      if acc.isEmpty then splitWsAux rest []
      else String.mk acc.reverse :: splitWsAux rest []
    else splitWsAux rest (c :: acc)

/-- Python `s.split()` — split on whitespace runs, dropping empties. -/
def pySplitWs (s : String) : List String :=
  splitWsAux s.toList []

/-- Python `s.replace(pat, rep)` (leftmost, non-overlapping), fuelled by
the input length.  An empty pattern is returned unchanged (that case is
never exercised by the source). -/
def listReplace : Nat → List Char → List Char → List Char → List Char
  | 0, _, _, l => l
  | fuel + 1, pat, rep, l =>
    match pat, l with
    | [], l1 => l1
    | _ :: _, [] => []
    | p :: ps, c :: cs =>
      if listLeads (p :: ps) (c :: cs) then
        rep ++ listReplace fuel (p :: ps) rep ((c :: cs).drop (p :: ps).length)
      else
        c :: listReplace fuel (p :: ps) rep cs

/-- Python `s.replace(pat, rep)`. -/
def pyReplace (s pat rep : String) : String :=
  String.mk (listReplace (s.toList.length + 1) pat.toList rep.toList s.toList)

/-- Index of the first occurrence of a character (Python `str.find`). -/
def firstIdxAux : List Char → Char → Nat → Option Nat
  | [], _, _ => none
  | c :: cs, t, i => if c = t then some i else firstIdxAux cs t (i + 1)

/-! ## Event dedup (`app/main.py`, `is_event_processed`)

The Python module keeps `recent_event_ids : deque(maxlen=5000)` and a
membership set `recent_event_set` that is rebuilt from the deque whenever
the deque is at capacity (so that evicted ids also leave the set).  The
set is modelled as a `List String` whose membership models Python set
membership; `app/connector.py`'s `WebhookConnector.is_event_processed`
carries the identical logic on instance state. -/

/-- `deque(maxlen=5000)` capacity of the dedup FIFO. -/
def dedupMaxlen : Nat := 5000

/-- The module-level dedup state of `app/main.py`. -/
structure DedupState where
  recent_event_ids : List String
  recent_event_set : List String
deriving DecidableEq, Repr

/-- Python `set.add` (membership-faithful model). -/
def setAdd (s : List String) (x : String) : List String :=
  if x ∈ s then s else s ++ [x]

/-- `deque.append` with `maxlen`: evict the oldest element when the
deque is at capacity. -/
def dequeAppendCap (d : List String) (x : String) : List String :=
  if d.length < dedupMaxlen then d ++ [x] else d.tail ++ [x]

/-- `is_event_processed(event_id)` from `app/main.py`: returns `true`
when the id was already seen (the delivery must be ignored), otherwise
records the id.  The empty id is never recorded.  After appending, if the
deque has reached capacity the set is rebuilt from the deque. -/
def is_event_processed (st : DedupState) (event_id : String) :
    Bool × DedupState :=
  if event_id = "" then (false, st)
  else if event_id ∈ st.recent_event_set then (true, st)
  else
    let ids := dequeAppendCap st.recent_event_ids event_id
    let s1 := setAdd st.recent_event_set event_id
    let s2 := if dedupMaxlen ≤ ids.length then ids else s1
    (false, ⟨ids, s2⟩)

/-- Fold a sequence of webhook ids through the dedup state (each
delivery in `/feishu/events` calls `is_event_processed` once). -/
def processAll : DedupState → List String → DedupState
  | st, [] => st
  | st, e :: rest => processAll (is_event_processed st e).2 rest

/-- The dedup invariant maintained by `is_event_processed`: the set and
the deque agree on membership, and the deque is within capacity. -/
def DedupInv (st : DedupState) : Prop :=
  (∀ x, x ∈ st.recent_event_set ↔ x ∈ st.recent_event_ids) ∧
    st.recent_event_ids.length ≤ dedupMaxlen

/-- 5000 pairwise-distinct non-empty event ids, none equal to `"E"`
(the id `aᵏ⁺¹` for `k < 5000`). -/
def freshIds : List String :=
  (List.range dedupMaxlen).map (fun n => String.mk (List.replicate (n + 1) 'a'))

/-! ## Settings repository (`app/db.py`)

Rows of the `settings` table carry more columns, but
`get_or_create_settings` only ever returns `mode` and `threshold`, so a
row is modelled by those two fields.  `DATABASE_URL` being unset is the
`hasUrl = false` configuration; in that configuration every function
returns immediately.  The embedding models the success path of the
SQLAlchemy sessions (the retry-in-a-fresh-session fallbacks collapse when
no query fails). -/

/-- A `settings` row (the columns the reads return). -/
structure SettingRow where
  mode : String
  threshold : ℚ
deriving DecidableEq, Repr

/-- The database: configuration flag plus the `settings` table keyed by
`chat_id`. -/
structure DbState where
  hasUrl : Bool
  rows : List (String × SettingRow)
deriving DecidableEq, Repr

/-- First-match association lookup (primary key, so at most one row). -/
def rowsLookup : List (String × SettingRow) → String → Option SettingRow
  | [], _ => none
  | (k, r) :: rest, c => if k = c then some r else rowsLookup rest c

/-- Read-modify-write of the `threshold` column; inserts a fresh row
(with the column default `mode = "normal"`) when the chat has none. -/
def rowsSetThreshold (rows : List (String × SettingRow)) (c : String) (v : ℚ) :
    List (String × SettingRow) :=
  match rowsLookup rows c with
  | some _ => rows.map (fun p => if p.1 = c then (c, { p.2 with threshold := v }) else p)
  | none => rows ++ [(c, ⟨"normal", v⟩)]

/-- Read-modify-write of the `mode` column; inserts a fresh row (with
the column default `threshold = 0.65`) when the chat has none. -/
def rowsSetMode (rows : List (String × SettingRow)) (c : String) (m : String) :
    List (String × SettingRow) :=
  match rowsLookup rows c with
  | some _ => rows.map (fun p => if p.1 = c then (c, { p.2 with mode := m }) else p)
  | none => rows ++ [(c, ⟨m, 13/20⟩)]

/-- `get_or_create_settings(chat_id, default_threshold)` from
`app/db.py`: without `DATABASE_URL` it returns built-in defaults without
touching any store; otherwise it returns the stored row, inserting a
default row on first read.  This is the non-raising execution; the
raising execution, swallowed by the function's outer
`except Exception`, is modelled by `get_or_create_settings_full`. -/
def get_or_create_settings (db : DbState) (chat_id : String)
    (default_threshold : ℚ) : SettingRow × DbState :=
  if !db.hasUrl then (⟨"normal", default_threshold⟩, db)
  else
    match rowsLookup db.rows chat_id with
    | some r => (r, db)
    | none =>
      (⟨"normal", default_threshold⟩,
        { db with rows := db.rows ++ [(chat_id, ⟨"normal", default_threshold⟩)] })

/-- `update_settings_threshold(chat_id, value)`: a no-op without
`DATABASE_URL`.  This is the non-raising execution; the raising
execution, swallowed by the function's outer `except Exception`, is
modelled by `update_settings_threshold_full`. -/
def update_settings_threshold (db : DbState) (chat_id : String) (v : ℚ) :
    DbState :=
  if !db.hasUrl then db
  else { db with rows := rowsSetThreshold db.rows chat_id v }

/-- `update_settings_mode(chat_id, mode)`: a no-op without
`DATABASE_URL`.  This is the non-raising execution; the raising
execution, swallowed by the function's outer `except Exception`, is
modelled by `update_settings_mode_full`. -/
def update_settings_mode (db : DbState) (chat_id : String) (m : String) :
    DbState :=
  if !db.hasUrl then db
  else { db with rows := rowsSetMode db.rows chat_id m }

/-- The outcome of the database accesses inside one settings helper of
`app/db.py`: the SQLAlchemy calls either complete or raise.  Each
helper wraps its whole body in `try … except Exception`, so a raising
execution still returns normally to the caller. -/
inductive DbOutcome where
  | ok : DbOutcome
  | raise : DbOutcome
deriving DecidableEq, Repr

/-- `get_or_create_settings` including its outer `except Exception`
branch (`app/db.py` lines 144–146): when the wrapped database accesses
raise, the built-in defaults are returned and nothing is inserted (a
failed insert transaction is rolled back).  Without `DATABASE_URL` the
function returns before any access, so both outcomes coincide with the
early return. -/
def get_or_create_settings_full (db : DbState) (chat_id : String)
    (default_threshold : ℚ) : DbOutcome → SettingRow × DbState
  | .ok => get_or_create_settings db chat_id default_threshold
  | .raise => (⟨"normal", default_threshold⟩, db)

/-- `update_settings_threshold` including its outer `except Exception`
branch (`app/db.py` line 177): a raising execution is swallowed — the
failed transaction persists nothing and the caller cannot tell the
write from a successful one. -/
def update_settings_threshold_full (db : DbState) (chat_id : String)
    (v : ℚ) : DbOutcome → DbState
  | .ok => update_settings_threshold db chat_id v
  | .raise => db

/-- `update_settings_mode` including its outer `except Exception`
branch (`app/db.py` line 209): a raising execution persists nothing
and is invisible to the caller. -/
def update_settings_mode_full (db : DbState) (chat_id : String)
    (m : String) : DbOutcome → DbState
  | .ok => update_settings_mode db chat_id m
  | .raise => db

/-- `ENGAGE_DEFAULT = 0.65` from `app/main.py`. -/
def ENGAGE_DEFAULT : ℚ := 13/20

/-! ## A model of `json.loads` (Python standard library)

`semantic_intent.py` relies on the stdlib `json` module.  The parser
below implements the strict JSON grammar that `json.loads` accepts
(objects with last-key-wins duplicate handling, arrays, strings with the
standard escapes including `\uXXXX`, numbers without leading zeros,
booleans, null; leading/trailing JSON whitespace; the whole input must be
consumed). -/

/-- A parsed JSON value; numbers are exact rationals. -/
inductive JVal where
  | jnull : JVal
  | jbool : Bool → JVal
  | jnum : ℚ → JVal
  | jstr : String → JVal
  | jarr : List JVal → JVal
  | jobj : List (String × JVal) → JVal

/-- JSON structural whitespace (RFC 8259 / CPython `json`). -/
def isJsonWs (c : Char) : Bool :=
  c = ' ' || c = '\t' || c = '\n' || c = '\r'

/-- Skip JSON whitespace. -/
def skipWsJ (l : List Char) : List Char :=
  l.dropWhile isJsonWs

/-- Hexadecimal digit value. -/
def hexVal? (c : Char) : Option Nat :=
  if '0' ≤ c ∧ c ≤ '9' then some (c.toNat - '0'.toNat)
  else if 'a' ≤ c ∧ c ≤ 'f' then some (c.toNat - 'a'.toNat + 10)
  else if 'A' ≤ c ∧ c ≤ 'F' then some (c.toNat - 'A'.toNat + 10)
  else none

/-- Single-character JSON escapes. -/
def escMap? (c : Char) : Option Char :=
  if c = '"' then some '"'
  else if c = '\\' then some '\\'
  else if c = '/' then some '/'
  else if c = 'b' then some '\x08'
  else if c = 'f' then some '\x0c'
  else if c = 'n' then some '\n'
  else if c = 'r' then some '\r'
  else if c = 't' then some '\t'
  else none

/-- Parse the body of a JSON string (after the opening quote), fuelled. -/
def parseJStrAux : Nat → List Char → List Char → Option (List Char × List Char)
  | 0, _, _ => none
  | _ + 1, acc, [] => (fun _ => none) acc
  | fuel + 1, acc, c :: rest =>
    if c = '"' then some (acc.reverse, rest)
    else if c = '\\' then
      match rest with
      | [] => none
      | e :: rest2 =>
        if e = 'u' then
          match rest2 with
          | a :: b :: c2 :: d :: rest3 =>
            match hexVal? a, hexVal? b, hexVal? c2, hexVal? d with
            | some x1, some x2, some x3, some x4 =>
              parseJStrAux fuel (Char.ofNat (((x1 * 16 + x2) * 16 + x3) * 16 + x4) :: acc) rest3
            | _, _, _, _ => none
          | _ => none
        else
          match escMap? e with
          | some ch => parseJStrAux fuel (ch :: acc) rest2
          | none => none
    else parseJStrAux fuel (c :: acc) rest

/-- Digit run to a natural number. -/
def digitsToNat (l : List Char) : Nat :=
  l.foldl (fun a c => a * 10 + (c.toNat - '0'.toNat)) 0

/-- Parse a JSON number: sign, integer part (no leading zeros), optional
fraction, optional exponent; the exact value as a rational. -/
def parseJNum (l : List Char) : Option (ℚ × List Char) :=
  let (neg, l1) := match l with
    | '-' :: r => (true, r)
    | _ => (false, l)
  let ds := l1.takeWhile Char.isDigit
  let r1 := l1.dropWhile Char.isDigit
  if ds.isEmpty then none
  else if 1 < ds.length ∧ ds.headD '0' = '0' then none
  else
    let fr : Option (List Char) × List Char := match r1 with
      | '.' :: r => (some (r.takeWhile Char.isDigit), r.dropWhile Char.isDigit)
      | _ => (none, r1)
    match fr with
    | (some [], _) => none
    | (fds, r2) =>
      let ex : Option (Bool × List Char) × List Char := match r2 with
        | 'e' :: '-' :: r => (some (true, r.takeWhile Char.isDigit), r.dropWhile Char.isDigit)
        | 'e' :: '+' :: r => (some (false, r.takeWhile Char.isDigit), r.dropWhile Char.isDigit)
        | 'e' :: r => (some (false, r.takeWhile Char.isDigit), r.dropWhile Char.isDigit)
        | 'E' :: '-' :: r => (some (true, r.takeWhile Char.isDigit), r.dropWhile Char.isDigit)
        | 'E' :: '+' :: r => (some (false, r.takeWhile Char.isDigit), r.dropWhile Char.isDigit)
        | 'E' :: r => (some (false, r.takeWhile Char.isDigit), r.dropWhile Char.isDigit)
        | _ => (none, r2)
      match ex with
      | (some (_, []), _) => none
      | (eo, r3) =>
        let fracDigits := fds.getD []
        let fracLen := fracDigits.length
        let mant : ℚ := ((digitsToNat ds * 10 ^ fracLen + digitsToNat fracDigits : ℕ) : ℚ)
        let base : ℚ := mant / ((10 : ℚ) ^ fracLen)
        let withExp : ℚ := match eo with
          | none => base
          | some (true, eds) => base / ((10 : ℚ) ^ digitsToNat eds)
          | some (false, eds) => base * ((10 : ℚ) ^ digitsToNat eds)
        some ((if neg then -withExp else withExp), r3)

/-- Intermediate result of the JSON recursive-descent core: a value, a
list of array items, or a list of object members. -/
inductive PRes where
  | rv : JVal → PRes
  | ra : List JVal → PRes
  | ro : List (String × JVal) → PRes

/-- The recursive-descent core, fuelled and structurally recursive (so
it reduces definitionally).  `mode = 0` parses one value, `mode = 1`
parses one-or-more comma-separated array items up to `]`, `mode = 2`
parses one-or-more comma-separated object members up to the closing
brace. -/
def parseCore : Nat → Nat → List Char → Option (PRes × List Char)
  | 0, _, _ => none
  | fuel + 1, 0, l =>
    (match skipWsJ l with
     | 'n' :: 'u' :: 'l' :: 'l' :: r => some (.rv .jnull, r)
     | 't' :: 'r' :: 'u' :: 'e' :: r => some (.rv (.jbool true), r)
     | 'f' :: 'a' :: 'l' :: 's' :: 'e' :: r => some (.rv (.jbool false), r)
     | '"' :: r =>
       (match parseJStrAux (r.length + 1) [] r with
        | some (cs, r2) => some (.rv (.jstr (String.mk cs)), r2)
        | none => none)
     | '[' :: r =>
       (match skipWsJ r with
        | ']' :: r2 => some (.rv (.jarr []), r2)
        | r1 =>
          match parseCore fuel 1 r1 with
          | some (.ra vs, r2) => some (.rv (.jarr vs), r2)
          | _ => none)
     | '\x7b' :: r =>
       (match skipWsJ r with
        | '\x7d' :: r2 => some (.rv (.jobj []), r2)
        | r1 =>
          match parseCore fuel 2 r1 with
          | some (.ro kvs, r2) => some (.rv (.jobj kvs), r2)
          | _ => none)
     | r => (parseJNum r).map (fun p => (.rv (.jnum p.1), p.2)))
  | fuel + 1, 1, l =>
    (match parseCore fuel 0 l with
     | some (.rv v, r) =>
       (match skipWsJ r with
        | ',' :: r2 =>
          (match parseCore fuel 1 r2 with
           | some (.ra vs, r3) => some (.ra (v :: vs), r3)
           | _ => none)
        | ']' :: r2 => some (.ra [v], r2)
        | _ => none)
     | _ => none)
  | fuel + 1, _, l =>
    (match skipWsJ l with
     | '"' :: r =>
       (match parseJStrAux (r.length + 1) [] r with
        | none => none
        | some (kcs, r1) =>
          match skipWsJ r1 with
          | ':' :: r2 =>
            (match parseCore fuel 0 r2 with
             | some (.rv v, r3) =>
               (match skipWsJ r3 with
                | ',' :: r4 =>
                  (match parseCore fuel 2 r4 with
                   | some (.ro kvs, r5) => some (.ro ((String.mk kcs, v) :: kvs), r5)
                   | _ => none)
                | '\x7d' :: r4 => some (.ro [(String.mk kcs, v)], r4)
                | _ => none)
             | _ => none)
          | _ => none)
     | _ => none)

/-- Parse one JSON value (fuelled). -/
def parseJ (fuel : Nat) (l : List Char) : Option (JVal × List Char) :=
  match parseCore fuel 0 l with
  | some (.rv v, r) => some (v, r)
  | _ => none

/-- `json.loads`: parse a complete JSON document (whole input consumed,
modulo surrounding JSON whitespace). -/
def jsonLoads (s : String) : Option JVal :=
  let l := s.toList
  match parseJ (2 * l.length + 4) l with
  | some (v, r) => if (skipWsJ r).isEmpty then some v else none
  | none => none

/-- Python `dict` key lookup on parsed members (last occurrence wins,
as `dict(pairs)` keeps the last duplicate). -/
def jlookup (kvs : List (String × JVal)) (k : String) : Option JVal :=
  kvs.foldl (fun acc kv => if kv.1 = k then some kv.2 else acc) none

/-- Python `result[key] = v` on the member list (replaces every entry of
that key; duplicates cannot arise from a single parse result's dict). -/
def setKeyJ (kvs : List (String × JVal)) (k : String) (v : JVal) :
    List (String × JVal) :=
  kvs.map (fun p => if p.1 = k then (k, v) else p)

/-! ## Classifier-response parsing (`app/semantic_intent.py`) -/

/-- The whitelist of `task_type` values in `classify_intent`. -/
def valid_task_types : List String := ["draw", "chat", "command", "other"]

/-- `_get_default_classify_intent_result("other")`. -/
def default_classify_result : List (String × JVal) :=
  [("task_type", .jstr "other"),
   ("confidence", .jnum (1/2)),
   ("is_image_modification", .jbool false),
   ("needs_reference_image", .jbool false),
   ("reason", .jstr "classification failed")]

/-- Scan from the first opening brace counting brace depth and return
the index of the matching closing brace, exactly as the character loop
of `_try_extract_json` does (braces inside JSON strings are counted
too). -/
def braceFindEnd : List Char → Nat → Nat → Option Nat
  | [], _, _ => none
  | c :: rest, depth, i =>
    if c = '\x7b' then braceFindEnd rest (depth + 1) (i + 1)
    else if c = '\x7d' then
      if depth = 1 then some i else braceFindEnd rest (depth - 1) (i + 1)
    else braceFindEnd rest depth (i + 1)

/-- `_try_extract_json(text)` from `app/semantic_intent.py`: strip
markdown code-fence markers, locate the outermost balanced brace
substring, parse it, and require a dict containing `task_type`. -/
def try_extract_json (s : String) : Option (List (String × JVal)) :=
  if s = "" then none
  else
    let tc :=
      if strContains s "```json" || strContains s "```" then
        pyStrip (pyReplace (pyReplace s "```json" "") "```" "")
      else s
    let cs := tc.toList
    match firstIdxAux cs '\x7b' 0 with
    | none => none
    | some i =>
      match braceFindEnd (cs.drop i) 0 0 with
      | none => none
      | some j =>
        match jsonLoads (String.mk ((cs.drop i).take (j + 1))) with
        | some (.jobj kvs) =>
          if (jlookup kvs "task_type").isSome then some kvs else none
        | _ => none

/-- The response-parsing policy of `classify_intent(text, ...)` for a
non-empty `text` (the `text` argument only shapes the prompt and the
empty-input early return; the classification of the model response is a
pure function of the response).  `none` stands for a failed LLM call
(the surrounding `except` returns the default). -/
def classify_intent_response (response : Option String) :
    List (String × JVal) :=
  match response with
  | none => default_classify_result
  | some r =>
    if pyStrip r = "" then default_classify_result
    else
      match jsonLoads r with
      | some (.jobj kvs) =>
        if (jlookup kvs "task_type").isSome then
          match jlookup kvs "task_type" with
          | some (.jstr t) =>
            if t ∈ valid_task_types then kvs
            else setKeyJ kvs "task_type" (.jstr "other")
          | _ => setKeyJ kvs "task_type" (.jstr "other")
        else default_classify_result
      | some _ => default_classify_result
      | none =>
        match try_extract_json r with
        | some kvs => kvs
        | none => default_classify_result

/-! ## Image generation (`app/image_gen.py`) -/

/-- `is_draw_request(text)`: deprecated in the source — the body
unconditionally returns `False` (classification was moved to
`semantic_intent.classify_intent`). -/
def is_draw_request (_text : String) : Bool := false

/-- The `supported_ratios` table of `_convert_size_to_aspect_ratio`, in
its Python insertion order. -/
def supportedRatios : List ((Nat × Nat) × String) :=
  [((1, 1), "1:1"), ((2, 3), "2:3"), ((3, 2), "3:2"), ((3, 4), "3:4"),
   ((4, 3), "4:3"), ((4, 5), "4:5"), ((5, 4), "5:4"), ((9, 16), "9:16"),
   ((16, 9), "16:9"), ((21, 9), "21:9")]

/-- The ratio denoted by a table key. -/
def ratOfKey (k : Nat × Nat) : ℚ := (k.1 : ℚ) / (k.2 : ℚ)

/-- First-match lookup in the ratio table (`ratio_key in supported_ratios`
followed by indexing). -/
def ratioLookup : List ((Nat × Nat) × String) → (Nat × Nat) → Option String
  | [], _ => none
  | (k, s) :: rest, q => if k = q then some s else ratioLookup rest q

/-- The closest-key loop of `_convert_size_to_aspect_ratio`: iterate the
table keeping the first key of strictly smaller distance
(`min_distance` starts at infinity, modelled by `Option`). -/
def findClosestAux (target : ℚ) :
    List ((Nat × Nat) × String) → Option (Nat × Nat) → Option ℚ →
      Option (Nat × Nat)
  | [], ck, _ => ck
  | kv :: rest, ck, md =>
    let d := |target - ratOfKey kv.1|
    match md with
    | none => findClosestAux target rest (some kv.1) (some d)
    | some m =>
      if d < m then findClosestAux target rest (some kv.1) (some d)
      else findClosestAux target rest ck (some m)

/-- `_convert_size_to_aspect_ratio(width, height)`: reduce by the gcd,
return the exact table token when the reduced pair is supported,
otherwise the token of the first key minimizing the distance to
`w_ratio / h_ratio` (final `"1:1"` fallback as in the source, reachable
only from an empty table). -/
def convert_size_to_aspect_ratio (width height : Nat) : String :=
  let divisor := Nat.gcd width height
  let w_ratio := width / divisor
  let h_ratio := height / divisor
  match ratioLookup supportedRatios (w_ratio, h_ratio) with
  | some tok => tok
  | none =>
    let target := (w_ratio : ℚ) / (h_ratio : ℚ)
    match findClosestAux target supportedRatios none none with
    | some k =>
      match ratioLookup supportedRatios k with
      | some tok => tok
      | none => "1:1"
    | none => "1:1"

/-- `MSG_DRAWING` (`app/constants.py`). -/
def MSG_DRAWING : String := "正在绘制中，请稍候..."

/-- `MSG_DRAW_SUCCESS` (`app/constants.py`). -/
def MSG_DRAW_SUCCESS : String := "图片已生成！"

/-- `MSG_DRAW_NO_CONFIG` (`app/constants.py`). -/
def MSG_DRAW_NO_CONFIG : String :=
  "绘图功能未配置，请联系管理员设置 IMAGE_MODEL 相关配置"

/-- `MSG_DRAW_ERROR.format(error=e)` (`app/constants.py`): the error
template interpolates the upstream error text. -/
def msg_draw_error (e : String) : String := "绘图失败: " ++ e

/-- The body of the provider's HTTP error response, as consumed by the
status `>= 300` branch of `generate_image`: a parsed `error.message`, a
JSON body without that field (the `"HTTP <status>"` default is kept), or
an unparsable body whose raw text is truncated to 200 characters. -/
inductive HttpErrBody where
  | jsonMsg : String → HttpErrBody
  | jsonNoMsg : HttpErrBody
  | notJson : String → HttpErrBody
deriving DecidableEq, Repr

/-- Outcome of the image-model HTTP interaction, as distinguished by
`generate_image`'s handlers: timeout, other exception (`str(e)`), an
HTTP error status, or a 2xx response with its `choices` shape.
`okParts ps` lists, for each entry of `multi_mod_content`, the
`inline_data.data` field when present. -/
inductive ImageApiResult where
  | timeout : ImageApiResult
  | exc : String → ImageApiResult
  | httpErr : Nat → HttpErrBody → ImageApiResult
  | okNoChoices : ImageApiResult
  | okNoMulti : ImageApiResult
  | okParts : List (Option String) → ImageApiResult
deriving DecidableEq, Repr

/-- The first non-empty `inline_data.data` among the content parts
(the scanning loop of `generate_image`). -/
def firstInlineData : List (Option String) → Option String
  | [] => none
  | some d :: rest => if d = "" then firstInlineData rest else some d
  | none :: rest => firstInlineData rest

/-- The error-branching of `generate_image(prompt, reference_image)`
from `app/image_gen.py`, given the provider interaction outcome.
Returns `(image_bytes?, error?)` exactly as the source does; image bytes
are abstracted as the base64 payload string (the prompt cleaning, size
resolution and request assembly do not affect which branch is taken).
The `errorMessage` for an HTTP error keeps `"HTTP <status>"` when the
body parses as JSON without `error.message`, and the first 200
characters of the raw body when it does not parse. -/
def generate_image_outcome (configured : Bool) (api : ImageApiResult) :
    Option String × Option String :=
  if !configured then (none, some MSG_DRAW_NO_CONFIG)
  else
    match api with
    | .timeout => (none, some (msg_draw_error "请求超时，请稍后重试"))
    | .exc m => (none, some (msg_draw_error m))
    | .httpErr status body =>
      let em := match body with
        | .jsonMsg m => m
        | .jsonNoMsg => "HTTP " ++ toString status
        | .notJson raw => pyTake 200 raw
      (none, some (msg_draw_error em))
    | .okNoChoices => (none, some (msg_draw_error "No choices in response"))
    | .okNoMulti => (none, some (msg_draw_error "No multi_mod_content in response"))
    | .okParts ps =>
      match firstInlineData ps with
      | some d => (some d, none)
      | none => (none, some (msg_draw_error "No image data found in response"))

/-! ## The orchestrator (`app/main.py`, `handle_message_event`)

The handler's externally visible behaviour is modelled as a pure
function from a normalized event, the mutable module state and an
oracle environment (results of network/database reads) to the new state
and the trace of outbound calls it performs.  Message-log reads only
shape LLM prompt text, and the web-enrichment of
`answer_when_mentioned` only performs non-chat HTTP calls, so prompts
and web lookups are not tracked in the trace. -/

/-- One entry of `message.mentions` as used by `mentioned_bot`:
`id.app_id` and `name` when present and non-null. -/
structure Mention where
  app_id : Option String
  name : Option String
deriving DecidableEq, Repr

/-- The normalized message event: the fields of the webhook payload
that `handle_message_event`, `extract_message_payload`, `mentioned_bot`
and `mentions_someone_else` consume.  `text` is the extracted text of
`extract_message_payload` (`post` messages flattened); `contentText` is
the raw `content.text` field that `mentioned_bot`'s third stage reads
(identical to `text` for plain text messages, empty for `post`). -/
structure Event where
  chat_id : String
  user_id : String
  text : String
  contentText : String
  image_keys : List String
  msg_type : String
  chat_type : String
  message_id : String
  mentions : List Mention
  sender_type : String
  parent_id : String
deriving DecidableEq, Repr

/-- Environment-derived configuration of `app/main.py` /
`app/feishu_api.py`: `BOT_NAME`, `BOT_USER_ID`, `FEISHU_APP_ID`,
`CONVERSATION_TTL_SECONDS`, and whether the image model is configured
(`IMAGE_MODEL_BASE_URL` and `IMAGE_MODEL_API_KEY` both set). -/
structure Config where
  botName : String
  botUserId : String
  botAppId : String
  ttl : Nat
  imageConfigured : Bool

/-- A chat-log entry (both the in-memory ring and the rows that
`get_recent_messages` returns). -/
structure LogEntry where
  ts : String
  user_id : String
  text : String
deriving DecidableEq, Repr

/-- Results of the external calls an event's processing may perform:
the clock, the formatted timestamp, the LLM reply body, whether the
thinking timer fires before the main task finishes, the quoted parent
text (empty = not found), per-key image fetches (`none` = failed or
empty bytes), per-chat `get_recent_messages` rows, the image-model
outcome and the `upload_image` result `(image_key, error)`. -/
structure Env where
  now : Nat
  nowStr : String
  llmReply : String
  thinkingFires : Bool
  parentText : String
  imageBytes : String → Option String
  dbMessages : String → List LogEntry
  imageApi : ImageApiResult
  uploadResult : String × String

/-- The mutable module state of `app/main.py` that
`handle_message_event` touches: the in-memory ring `chat_logs`, the
sticky-window map `conversation_active_until` (absent chats map to 0)
and the settings database. -/
structure HState where
  chatLogs : String → List LogEntry
  activeUntil : String → Nat
  db : DbState

/-- One outbound side effect of the handler, in call order.  The first
three are chat-visible; the `db*` constructors record persistence
writes, `llmCall`/`imageGenCall` record model invocations. -/
inductive Act where
  | sendText : String → String → Act
  | sendImage : String → String → Act
  | uploadImage : Act
  | llmCall : Act
  | imageGenCall : Act
  | dbSaveMessage : String → String → String → Act
  | dbSetThreshold : String → ℚ → Act
  | dbSetMode : String → String → Act
deriving DecidableEq, Repr

/-- Chat-visible outbound calls (`send_text_to_chat`,
`send_image_to_chat`, `upload_image`). -/
def isOutbound : Act → Bool
  | .sendText _ _ => true
  | .sendImage _ _ => true
  | .uploadImage => true
  | _ => false

/-- The outbound sub-trace. -/
def outbound (tr : List Act) : List Act :=
  tr.filter isOutbound

/-- The threshold values written by a trace. -/
def thresholdWrites (tr : List Act) : List ℚ :=
  tr.filterMap (fun a => match a with
    | .dbSetThreshold _ v => some v
    | _ => none)

/-- `mentioned_bot(event)` from `app/feishu_api.py`: (1) a mention with
a non-empty `id.app_id` equal to `FEISHU_APP_ID`; (2) a mention whose
stripped `name` is non-empty and equals `BOT_NAME`; (3) the text of
`content.text` contains the literal `@<BOT_NAME>`. -/
def mentioned_bot (cfg : Config) (e : Event) : Bool :=
  e.mentions.any (fun m =>
    match m.app_id with
    | some a => a ≠ "" && a == cfg.botAppId
    | none => false) ||
  e.mentions.any (fun m =>
    match m.name with
    | some n => pyStrip n ≠ "" && pyStrip n == cfg.botName
    | none => false) ||
  strContains e.contentText ("@" ++ cfg.botName)

/-- `mentions_someone_else(event)` from `app/main.py`: a non-empty
mention list none of whose entries addresses the bot. -/
def mentions_someone_else (cfg : Config) (e : Event) : Bool :=
  !e.mentions.isEmpty && !mentioned_bot cfg e

/-- The silence phrase list of `should_zip_reply`. -/
def zipKeywords : List String :=
  ["啥都不用做", "你呆着就好", "别说话", "闭嘴", "安静点", "不用回",
   "不用回复", "不需要你"]

/-- `should_zip_reply(text)` from `app/main.py`: the stripped text is
non-empty and contains one of the silence phrases. -/
def should_zip_reply (text : String) : Bool :=
  let t := pyStrip text
  if t = "" then false
  else zipKeywords.any (fun k => strContains t k)

/-- The keyword list of `basic_engage_score`. -/
def engageKeywords : List String :=
  ["怎么", "如何", "为啥", "为什么", "怎么办", "谁知道", "有链接吗",
   "总结", "结论", "进展", "?", "？"]

/-- `basic_engage_score(text)` from `app/main.py`: 0.2 per matching
keyword (checked in the raw and lowercased text), 0.2 more for a
question mark, capped at 1.0. -/
def basic_engage_score (text : String) : ℚ :=
  let lowers := pyToLower text
  let base : ℚ := engageKeywords.foldl
    (fun score kw =>
      if strContains text kw || strContains lowers kw then score + 2/10
      else score) 0
  let withQ : ℚ :=
    if strContains text "?" || strContains text "？" then base + 2/10 else base
  min withQ 1

/-- `mark_conversation_active(chat_id)` from `app/main.py`. -/
def mark_conversation_active (now ttl : Nat) (m : String → Nat)
    (chat_id : String) : String → Nat :=
  if chat_id = "" then m
  else fun c => if c = chat_id then now + ttl else m c

/-- `is_conversation_active(chat_id)` from `app/main.py`:
`time.time() <= conversation_active_until.get(chat_id, 0.0)`. -/
def is_conversation_active (now : Nat) (m : String → Nat)
    (chat_id : String) : Bool :=
  if chat_id = "" then false else decide (now ≤ m chat_id)

/-- The stored text: the stripped input, with a readable
`[图片xN]` suffix when images are attached. -/
def text_for_store (e : Event) : String :=
  let t := pyStrip e.text
  if e.image_keys.isEmpty then t
  else
    let suffix := "[图片x" ++ toString e.image_keys.length ++ "]"
    if t = "" then suffix else t ++ " " ++ suffix

/-- Keep the newest `n` entries (`deque(maxlen=n)` contents). -/
def takeLast (n : Nat) (l : List LogEntry) : List LogEntry :=
  l.drop (l.length - n)

/-- Append the message to the in-memory ring (capacity 2000). -/
def appendLog (env : Env) (st : HState) (e : Event) (tfs : String) : HState :=
  { st with chatLogs := fun c =>
      if c = e.chat_id then
        takeLast 2000 (st.chatLogs e.chat_id ++ [⟨env.nowStr, e.user_id, tfs⟩])
      else st.chatLogs c }

/-- The image fetch loop shared by the mention and sticky branches:
up to 4 keys, keeping successful non-empty fetches. -/
def fetchImages (env : Env) (e : Event) : List String :=
  if !e.image_keys.isEmpty && e.message_id ≠ "" then
    (e.image_keys.take 4).filterMap env.imageBytes
  else []

/-- The no-reference phrases of `handle_draw_request`. -/
def noRefKeywords : List String :=
  ["不用参考", "不参考", "忽略图片", "不基于", "独立创作"]

/-- `handle_draw_request(chat_id, text, user_images)` from
`app/main.py`: announce the drawing, pick the first user image as
reference unless a no-reference phrase occurs, call the image model,
and deliver either the uploaded image plus its caption or one error
text.  `upload_image` errors are interpolated into the reply. -/
def handle_draw_request (cfg : Config) (env : Env) (chat_id text : String)
    (user_images : List String) : List Act :=
  let _reference : Option String :=
    match user_images with
    | [] => none
    | img :: _ =>
      if noRefKeywords.any (fun k => strContains text k) then none
      else some img
  let callActs : List Act :=
    if cfg.imageConfigured then [Act.imageGenCall] else []
  let (bytesO, errO) := generate_image_outcome cfg.imageConfigured env.imageApi
  [Act.sendText chat_id MSG_DRAWING] ++ callActs ++
    match errO with
    | some err => [Act.sendText chat_id err]
    | none =>
      if bytesO.getD "" = "" then
        [Act.sendText chat_id "图片生成失败，请稍后重试"]
      else
        let (image_key, upload_error) := env.uploadResult
        [Act.uploadImage] ++
          (if upload_error ≠ "" then
            [Act.sendText chat_id ("图片上传失败: " ++ upload_error)]
          else
            [Act.sendImage chat_id image_key,
             Act.sendText chat_id MSG_DRAW_SUCCESS])

/-- The answer pipeline (`answer_when_mentioned` wrapped in
`run_with_thinking`): an optional thinking notice (only when images are
attached and the timer fires first — see the dedicated race model
below for its true ordering), one LLM call, the reply, and a refresh of
the sticky window. -/
def answerPipeline (cfg : Config) (env : Env) (st : HState) (e : Event)
    (images : List String) : HState × List Act :=
  let thinkA : List Act :=
    if !images.isEmpty && env.thinkingFires then
      [Act.sendText e.chat_id "让我想想……"]
    else []
  ({ st with activeUntil :=
      mark_conversation_active env.now cfg.ttl st.activeUntil e.chat_id },
   thinkA ++ [Act.llmCall, Act.sendText e.chat_id env.llmReply])

/-- The common tail of the mention and sticky branches: fetch images,
branch on the (deprecated, constantly false) keyword draw detector,
otherwise run the answer pipeline. -/
def answerOrDraw (cfg : Config) (env : Env) (st : HState) (e : Event) :
    HState × List Act :=
  let images := fetchImages env e
  if is_draw_request e.text then
    ({ st with activeUntil :=
        mark_conversation_active env.now cfg.ttl st.activeUntil e.chat_id },
     handle_draw_request cfg env e.chat_id e.text images)
  else answerPipeline cfg env st e images

/-- The `/help` reply text of `handle_message_event`. -/
def helpText : String :=
  "可用命令：\n/summary weekly|monthly - 生成群总结\n" ++
  "/settings threshold <0~1> - 调整主动发言阈值（0=总是回复，1=从不回复）\n" ++
  "/settings mode quiet|normal|active - 调整发言模式\n" ++
  "  - quiet: 仅在被@时回复\n  - normal: 默认模式，根据阈值自动回复\n" ++
  "  - active: 更积极地自动回复\n/optout - 个人选择不纳入公开个人总结\n" ++
  "/reset - 重置 Bot 状态（清空会话、重置设置）\n" ++
  "\n💡 提示：如不想自动回复，使用 /settings mode quiet"

/-- `MSG_THRESHOLD_ERROR` (the reply of the threshold parse failure). -/
def thresholdErrText : String := "阈值需为0~1数字，例如 /settings threshold 0.65"

/-- The `/reset` acknowledgement. -/
def resetText : String :=
  "已重置 Bot 状态：\n- 清空会话记录\n- 重置主动发言阈值为 0.65\n" ++
  "- 重置发言模式为 normal\n- 忘记所有之前的对话上下文"

/-- The confirmation for `/settings threshold` (the Python f-string
interpolates the float; the decimal rendering is abstracted by
`toString` on the rational, which no claim depends on). -/
def thresholdSetText (t : ℚ) : String := "已将主动发言阈值设置为 " ++ toString t

/-- A model of Python `float(s)` for finite decimal/scientific literals:
optional surrounding whitespace and sign, digits with an optional point
(at least one digit overall), optional exponent.  The `inf`/`nan`
spellings and underscore separators that CPython additionally accepts
are outside the model. -/
def pyFloat? (s : String) : Option ℚ :=
  let l0 := (s.toList.dropWhile isPyWs).reverse.dropWhile isPyWs |>.reverse
  let (neg, l1) : Bool × List Char := match l0 with
    | '-' :: r => (true, r)
    | '+' :: r => (false, r)
    | _ => (false, l0)
  let ds := l1.takeWhile Char.isDigit
  let r1 := l1.dropWhile Char.isDigit
  let fr : Option (List Char) × List Char := match r1 with
    | '.' :: r => (some (r.takeWhile Char.isDigit), r.dropWhile Char.isDigit)
    | _ => (none, r1)
  match fr with
  | (fds, r2) =>
    if ds.isEmpty ∧ (fds.getD []).isEmpty then none
    else
      let ex : Option (Bool × List Char) × List Char := match r2 with
        | 'e' :: '-' :: r => (some (true, r.takeWhile Char.isDigit), r.dropWhile Char.isDigit)
        | 'e' :: '+' :: r => (some (false, r.takeWhile Char.isDigit), r.dropWhile Char.isDigit)
        | 'e' :: r => (some (false, r.takeWhile Char.isDigit), r.dropWhile Char.isDigit)
        | 'E' :: '-' :: r => (some (true, r.takeWhile Char.isDigit), r.dropWhile Char.isDigit)
        | 'E' :: '+' :: r => (some (false, r.takeWhile Char.isDigit), r.dropWhile Char.isDigit)
        | 'E' :: r => (some (false, r.takeWhile Char.isDigit), r.dropWhile Char.isDigit)
        | _ => (none, r2)
      match ex with
      | (some (_, []), _) => none
      | (eo, r3) =>
        if !r3.isEmpty then none
        else
          let fracDigits := (fr.1).getD []
          let fracLen := fracDigits.length
          let mant : ℚ :=
            ((digitsToNat ds * 10 ^ fracLen + digitsToNat fracDigits : ℕ) : ℚ)
          let base : ℚ := mant / ((10 : ℚ) ^ fracLen)
          let withExp : ℚ := match eo with
            | none => base
            | some (true, eds) => base / ((10 : ℚ) ^ digitsToNat eds)
            | some (false, eds) => base * ((10 : ℚ) ^ digitsToNat eds)
          some (if neg then -withExp else withExp)

/-- `summarize_chat(chat_id, period)` from `app/main.py`: with no
messages (database rows, falling back to the ring) send the empty-state
notice, otherwise call the LLM and send the prefixed report. -/
def summarize_chat (env : Env) (st : HState) (chat_id period : String) :
    List Act :=
  let msgs :=
    if (env.dbMessages chat_id).isEmpty then st.chatLogs chat_id
    else env.dbMessages chat_id
  if msgs.isEmpty then
    [Act.sendText chat_id ("最近没有足够的消息用于" ++ period ++ "总结。")]
  else
    [Act.llmCall,
     Act.sendText chat_id (period ++ "总结：\n" ++ env.llmReply)]

/-- The command block of `handle_message_event` (the `text.startswith("/")`
suite): `some` when one of the recognized command branches returns,
`none` when control falls through to the mention/sticky/proactive
logic (unknown commands, `/settings` with fewer than two arguments). -/
def command_action (env : Env) (st : HState) (e : Event) :
    Option (HState × List Act) :=
  if strLeads "/" e.text then
    match pySplitWs (pyStrip e.text) with
    | [] => none
    | cmd0 :: args =>
      let cmd := pyToLower cmd0
      if cmd = "/help" then
        some (st, [Act.sendText e.chat_id helpText])
      else if cmd = "/summary" then
        let period := match args with
          | [] => "weekly"
          | a :: _ =>
            let p := pyToLower a
            if p = "weekly" ∨ p = "monthly" then p else "weekly"
        some (st, summarize_chat env st e.chat_id period)
      else if cmd = "/settings" then
        match args with
        | key0 :: val0 :: _ =>
          let key := pyToLower key0
          let val := pyToLower val0
          if key = "threshold" then
            match pyFloat? val with
            | some x =>
              let t := max 0 (min 1 x)
              some ({ st with db := update_settings_threshold st.db e.chat_id t },
                [Act.dbSetThreshold e.chat_id t,
                 Act.sendText e.chat_id (thresholdSetText t)])
            | none => some (st, [Act.sendText e.chat_id thresholdErrText])
          else if key = "mode" ∧ (val = "quiet" ∨ val = "normal" ∨ val = "active") then
            some ({ st with db := update_settings_mode st.db e.chat_id val },
              [Act.dbSetMode e.chat_id val,
               Act.sendText e.chat_id ("已切换模式为 " ++ val)])
          else some (st, [Act.sendText e.chat_id "未识别的设置项。"])
        | _ => none
      else if cmd = "/optout" then
        some (st, [Act.sendText e.chat_id "已记录；后续公共总结将不展示你的个人条目。"])
      else if cmd = "/reset" then
        some ({ st with
                chatLogs := fun c => if c = e.chat_id then [] else st.chatLogs c,
                activeUntil := fun c => if c = e.chat_id then 0 else st.activeUntil c,
                db := update_settings_mode
                  (update_settings_threshold st.db e.chat_id ENGAGE_DEFAULT)
                  e.chat_id "normal" },
          [Act.dbSetThreshold e.chat_id ENGAGE_DEFAULT,
           Act.dbSetMode e.chat_id "normal",
           Act.sendText e.chat_id resetText])
      else none
  else none

/-- `maybe_proactive_engage(chat_id, text, ctx, threshold)` from
`app/main.py`: reply via the LLM iff `basic_engage_score(text)` reaches
the threshold. -/
def maybe_proactive_engage (env : Env) (e : Event) (threshold : ℚ) :
    List Act :=
  if threshold ≤ basic_engage_score e.text then
    [Act.llmCall, Act.sendText e.chat_id env.llmReply]
  else []

/-- `handle_message_event(event, event_id)` from `app/main.py`: the
orchestrator decision tree.  Gates drop non-user senders, the bot's own
messages, and events without chat or content; the message is then
persisted (database + ring); a recognized command returns its reply; a
bot mention marks the conversation active and answers; otherwise, in a
group chat with an active sticky window and no mention of someone else,
a silence phrase is answered with the zip emoji and everything else is
answered; otherwise the proactive path consults the chat settings and
stays silent in `quiet` mode. -/
def handle_message_event (cfg : Config) (env : Env) (st : HState)
    (e : Event) : HState × List Act :=
  if e.sender_type ≠ "" ∧ e.sender_type ≠ "user" then (st, [])
  else if cfg.botUserId ≠ "" ∧ e.user_id = cfg.botUserId then (st, [])
  else if e.chat_id = "" ∨ (pyStrip e.text = "" ∧ e.image_keys.isEmpty) then (st, [])
  else
    let tfs := text_for_store e
    let saveA : List Act := [Act.dbSaveMessage e.chat_id e.user_id tfs]
    let st1 := appendLog env st e tfs
    match command_action env st1 e with
    | some (st2, as) => (st2, saveA ++ as)
    | none =>
      if mentioned_bot cfg e then
        let st2 := { st1 with activeUntil :=
          mark_conversation_active env.now cfg.ttl st1.activeUntil e.chat_id }
        let (st3, as) := answerOrDraw cfg env st2 e
        (st3, saveA ++ as)
      else if e.chat_type = "group" &&
          is_conversation_active env.now st1.activeUntil e.chat_id &&
          !mentions_someone_else cfg e then
        if should_zip_reply e.text then
          ({ st1 with activeUntil :=
              mark_conversation_active env.now cfg.ttl st1.activeUntil e.chat_id },
           saveA ++ [Act.sendText e.chat_id "🤐"])
        else
          let (st2, as) := answerOrDraw cfg env st1 e
          (st2, saveA ++ as)
      else
        match get_or_create_settings st1.db e.chat_id ENGAGE_DEFAULT with
        | (settings, db2) =>
          let st2 := { st1 with db := db2 }
          if settings.mode ≠ "quiet" then
            (st2, saveA ++ maybe_proactive_engage env e settings.threshold)
          else (st2, saveA)

/-! ## The thinking-timer race (`app/main.py`, `run_with_thinking`)

`run_with_thinking` runs the main coroutine (whose last chat-visible
effect is sending the reply) concurrently with a companion task that
waits on an `asyncio.Event` with a timeout.  The asyncio semantics are
modelled as a small-step machine: a task runs atomically between
`await` points; each network send is an awaited call whose
chat-visible effect happens at some point while the call is in flight.

Correspondence with the source:
* `mLlmDone` — the main coroutine's LLM call returns and it starts the
  awaited reply send (a suspension point, so the timer may run while
  the send is in flight).
* `mReplySent` — the reply's chat-visible effect occurs during that
  awaited call.
* `mFinish` — the reply send returns; `answer_when_mentioned` returns,
  and `run_with_thinking`'s `finally` block runs `done.set()` and
  `thinking_task.cancel()` synchronously in the same scheduling slice
  (no `await` separates them, hence one atomic step).
* `tExpire` — `asyncio.wait_for(done.wait(), timeout)` raises
  `TimeoutError`; this can only happen while `done` is unset.
* `tWaitDone` — `done.wait()` completes (or the pending cancellation
  aborts the wait): the companion exits without sending.
* `tThinkSent` — the companion's `send_text_to_chat` effect; a
  cancellation delivered before the effect aborts the send, so the step
  requires the cancel flag to be clear.
* `tNoEmit` / `tThinkEnd` — the companion finishes (with
  `enable_thinking` false, or after its send completes). -/

/-- Program counter of the main task. -/
inductive MPc where
  | working : MPc
  | sending : MPc
  | sent : MPc
  | finished : MPc
deriving DecidableEq, Repr

/-- Program counter of the companion (thinking) task. -/
inductive TPc where
  | waiting : TPc
  | expired : TPc
  | emitted : TPc
  | ended : TPc
deriving DecidableEq, Repr

/-- Joint state of `run_with_thinking`'s two tasks. -/
structure RwtState where
  mpc : MPc
  tpc : TPc
  done : Bool
  cancelled : Bool
  enable : Bool
deriving DecidableEq, Repr

/-- Events of an interleaved execution of `run_with_thinking`. -/
inductive REv where
  | mLlmDone : REv
  | mReplySent : REv
  | mFinish : REv
  | tExpire : REv
  | tWaitDone : REv
  | tNoEmit : REv
  | tThinkSent : REv
  | tThinkEnd : REv
deriving DecidableEq, Repr

/-- The guarded transition function of the race model. -/
def rwtStep (s : RwtState) : REv → Option RwtState
  | .mLlmDone => if s.mpc = .working then some { s with mpc := .sending } else none
  | .mReplySent => if s.mpc = .sending then some { s with mpc := .sent } else none
  | .mFinish =>
    if s.mpc = .sent then
      some { s with mpc := .finished, done := true, cancelled := true }
    else none
  | .tExpire =>
    if s.tpc = .waiting ∧ s.done = false then some { s with tpc := .expired }
    else none
  | .tWaitDone =>
    if s.tpc = .waiting ∧ s.done = true then some { s with tpc := .ended }
    else none
  | .tNoEmit =>
    if s.tpc = .expired ∧ s.enable = false then some { s with tpc := .ended }
    else none
  | .tThinkSent =>
    if s.tpc = .expired ∧ s.enable = true ∧ s.cancelled = false then
      some { s with tpc := .emitted }
    else none
  | .tThinkEnd =>
    if s.tpc = .emitted then some { s with tpc := .ended } else none

/-- Run a sequence of events through the race machine; `none` when the
schedule is not a legal interleaving. -/
def rwtRun (s : RwtState) : List REv → Option RwtState
  | [] => some s
  | e :: rest =>
    match rwtStep s e with
    | some s1 => rwtRun s1 rest
    | none => none

/-- Initial state of one `run_with_thinking` invocation. -/
def rwtInit (enable : Bool) : RwtState :=
  ⟨.working, .waiting, false, false, enable⟩

/-! ## Claims -/

/-- C10: `is_event_processed("")` returns `False` and leaves the dedup
FIFO and membership set unchanged, so webhook deliveries without an
`event_id` are never deduplicated — a redelivery is dispatched again
(the second call also returns `False` on the unchanged state). -/
theorem C10_empty_event_id (st : DedupState) :
    is_event_processed st "" = (false, st) ∧
    (is_event_processed (is_event_processed st "").2 "").1 = false := by
  constructor <;> simp [is_event_processed]

/-- C3: `classify_intent`'s response-parsing policy: strict JSON parse
first (the third conjunct shows a strict success returned as-is); on a
parse failure the code-fence-stripping balanced-brace extraction
`_try_extract_json` decides the result, with the conservative default
`task_type = "other"`, `confidence = 0.5` when it also fails (first
conjunct, plus the default's fields); the fenced example yields
`task_type = "chat"`, `confidence = 0.8` (last conjunct). -/
theorem C3_classify_policy :
    (∀ s : String, pyStrip s ≠ "" → jsonLoads s = none →
      classify_intent_response (some s) =
        (try_extract_json s).getD default_classify_result) ∧
    jlookup default_classify_result "task_type" = some (.jstr "other") ∧
    jlookup default_classify_result "confidence" = some (.jnum (1/2)) ∧
    classify_intent_response
        (some "\x7b\"task_type\":\"chat\",\"confidence\":0.9\x7d") =
      [("task_type", .jstr "chat"), ("confidence", .jnum (9/10))] ∧
    classify_intent_response
        (some "```json\n\x7b\"task_type\":\"chat\",\"confidence\":0.8\x7d\n```") =
      [("task_type", .jstr "chat"), ("confidence", .jnum (4/5))] := by
  refine ⟨?_, ?_, ?_, ?_, ?_⟩
  · intro s hne hparse
    simp only [classify_intent_response, hparse, if_neg hne]
    cases h : try_extract_json s <;> simp [h]
  · with_unfolding_all rfl
  · with_unfolding_all rfl
  · with_unfolding_all rfl
  · with_unfolding_all rfl

/-- Witness for C3: the fallback conjunct applied at a concrete
unparsable response without an extractable object. -/
theorem C3_classify_policy_witness :
    classify_intent_response (some "not json at all") =
      default_classify_result := by
  have h := C3_classify_policy.1 "not json at all"
    (by with_unfolding_all decide) (by with_unfolding_all rfl)
  rw [h]
  with_unfolding_all rfl

/-- Appending a fresh row is found when the key was absent. -/
theorem rowsLookup_append_none (rows : List (String × SettingRow)) (c : String)
    (r : SettingRow) (h : rowsLookup rows c = none) :
    rowsLookup (rows ++ [(c, r)]) c = some r := by
  induction rows with
  | nil => simp [rowsLookup]
  | cons p rest ih =>
    obtain ⟨k, r0⟩ := p
    by_cases hc : k = c
    · simp [rowsLookup, hc] at h
    · simp only [List.cons_append, rowsLookup, if_neg hc] at h ⊢
      exact ih h

/-- A field update through the read-modify-write `map` is found. -/
theorem rowsLookup_map_update (rows : List (String × SettingRow)) (c : String)
    (g : SettingRow → SettingRow) (r0 : SettingRow)
    (h : rowsLookup rows c = some r0) :
    rowsLookup
      (rows.map (fun p => if p.1 = c then (c, g p.2) else p)) c = some (g r0) := by
  induction rows with
  | nil => simp [rowsLookup] at h
  | cons p rest ih =>
    obtain ⟨k, r1⟩ := p
    rw [List.map_cons]
    by_cases hc : k = c
    · subst hc
      simp only [rowsLookup, if_pos rfl] at h
      obtain rfl : r1 = r0 := Option.some_inj.mp h
      have hhead : (if (k, r1).1 = k then (k, g (k, r1).2) else (k, r1)) =
          (k, g r1) := by simp
      rw [hhead]
      simp [rowsLookup]
    · simp only [rowsLookup, if_neg hc] at h
      have hhead : (if (k, r1).1 = c then (c, g (k, r1).2) else (k, r1)) =
          (k, r1) := by simp [hc]
      rw [hhead]
      simp only [rowsLookup, if_neg hc]
      exact ih h

/-- C5 counterexample: read-your-writes fails in configurations the
claim explicitly covers.  (a) With `DATABASE_URL` unset, a threshold
write of 0.9 is dropped and the next read returns the default 0.65.
(b) With the database configured, a write whose accesses raise is
swallowed by `except Exception` and the next (successful) read still
returns the default.  (c) With the database configured and the write
committed, a read whose accesses raise returns the default instead of
the written value. -/
theorem C5_counterexample :
    (get_or_create_settings
        (update_settings_threshold ⟨false, []⟩ "c" (9/10)) "c"
        ENGAGE_DEFAULT).1.threshold = 13/20 ∧
    (get_or_create_settings_full
        (update_settings_threshold_full ⟨true, []⟩ "c" (9/10) .raise) "c"
        ENGAGE_DEFAULT .ok).1.threshold = 13/20 ∧
    (get_or_create_settings_full
        (update_settings_threshold_full ⟨true, []⟩ "c" (9/10) .ok) "c"
        ENGAGE_DEFAULT .raise).1.threshold = 13/20 ∧
    (13/20 : ℚ) ≠ 9/10 := by
  refine ⟨?_, ?_, ?_, ?_⟩
  · with_unfolding_all rfl
  · with_unfolding_all rfl
  · with_unfolding_all rfl
  · with_unfolding_all decide

/-- C5 amended: read-your-writes for `mode` and `threshold` holds
exactly when `DATABASE_URL` is configured and neither the write's nor
the subsequent read's database accesses raise: after a non-raising
`update_settings_threshold` (resp. `update_settings_mode`), a
non-raising `get_or_create_settings` on the same chat returns the
written value for that key.  The unset-`DATABASE_URL` and raising
executions are refuted by the counterexample. -/
theorem C5_amended (db : DbState) (c : String) (v : ℚ) (m : String) (d : ℚ)
    (h : db.hasUrl = true) (wo ro : DbOutcome)
    (hw : wo = DbOutcome.ok) (hr : ro = DbOutcome.ok) :
    (get_or_create_settings_full
        (update_settings_threshold_full db c v wo) c d ro).1.threshold = v ∧
    (get_or_create_settings_full
        (update_settings_mode_full db c m wo) c d ro).1.mode = m := by
  subst hw
  subst hr
  simp only [get_or_create_settings_full, update_settings_threshold_full,
    update_settings_mode_full]
  constructor
  · unfold update_settings_threshold get_or_create_settings rowsSetThreshold
    simp only [h, Bool.not_true, Bool.false_eq_true, if_false]
    cases hl : rowsLookup db.rows c with
    | none =>
      simp only [hl]
      rw [rowsLookup_append_none db.rows c ⟨"normal", v⟩ hl]
    | some r0 =>
      simp only [hl]
      rw [rowsLookup_map_update db.rows c (fun r => { r with threshold := v }) r0 hl]
  · unfold update_settings_mode get_or_create_settings rowsSetMode
    simp only [h, Bool.not_true, Bool.false_eq_true, if_false]
    cases hl : rowsLookup db.rows c with
    | none =>
      simp only [hl]
      rw [rowsLookup_append_none db.rows c ⟨m, 13/20⟩ hl]
    | some r0 =>
      simp only [hl]
      rw [rowsLookup_map_update db.rows c (fun r => { r with mode := m }) r0 hl]

/-- Witness for C5 amended: a concrete configured database with
non-raising write and read executions. -/
theorem C5_amended_witness :
    (get_or_create_settings_full
        (update_settings_threshold_full ⟨true, []⟩ "chat1" (9/10)
          DbOutcome.ok) "chat1"
        ENGAGE_DEFAULT DbOutcome.ok).1.threshold = 9/10 ∧
    (get_or_create_settings_full
        (update_settings_mode_full ⟨true, []⟩ "chat1" "quiet"
          DbOutcome.ok) "chat1"
        ENGAGE_DEFAULT DbOutcome.ok).1.mode = "quiet" :=
  ⟨(C5_amended ⟨true, []⟩ "chat1" (9/10) "quiet" ENGAGE_DEFAULT rfl
      DbOutcome.ok DbOutcome.ok rfl rfl).1,
   (C5_amended ⟨true, []⟩ "chat1" (9/10) "quiet" ENGAGE_DEFAULT rfl
      DbOutcome.ok DbOutcome.ok rfl rfl).2⟩

/-- A successful `ratioLookup` returns a pair of the table. -/
theorem ratioLookup_mem (l : List ((Nat × Nat) × String)) (q : Nat × Nat)
    (s : String) (h : ratioLookup l q = some s) : (q, s) ∈ l := by
  induction l with
  | nil => simp [ratioLookup] at h
  | cons p rest ih =>
    obtain ⟨k, t⟩ := p
    by_cases hk : k = q
    · subst hk
      simp only [ratioLookup, if_pos rfl] at h
      simp [Option.some_inj.mp h]
    · simp only [ratioLookup, if_neg hk] at h
      exact List.mem_cons_of_mem _ (ih h)

/-- A key present in the table is found by `ratioLookup` (possibly with
an earlier duplicate's token, which is again a pair of the table). -/
theorem mem_ratioLookup (l : List ((Nat × Nat) × String)) (q : Nat × Nat)
    (s0 : String) (h : (q, s0) ∈ l) :
    ∃ s1, ratioLookup l q = some s1 ∧ (q, s1) ∈ l := by
  induction l with
  | nil => simp at h
  | cons p rest ih =>
    obtain ⟨k, t⟩ := p
    by_cases hk : k = q
    · subst hk
      exact ⟨t, by simp [ratioLookup], by simp⟩
    · have hrest : (q, s0) ∈ rest := by
        rcases List.mem_cons.mp h with heq | hm
        · exact absurd (congrArg Prod.fst heq.symm) hk
        · exact hm
      obtain ⟨s1, h1, h2⟩ := ih hrest
      exact ⟨s1, by simp only [ratioLookup, if_neg hk]; exact h1,
        List.mem_cons_of_mem _ h2⟩

/-- Correctness of the first-strictly-smaller argmin loop of
`_convert_size_to_aspect_ratio`, relative to a seeded accumulator. -/
theorem findClosestAux_spec (t : ℚ) :
    ∀ (l : List ((Nat × Nat) × String)) (k : Nat × Nat) (dk : ℚ),
      dk = |t - ratOfKey k| →
      ∃ k', findClosestAux t l (some k) (some dk) = some k' ∧
        |t - ratOfKey k'| ≤ dk ∧
        (∀ kv ∈ l, |t - ratOfKey k'| ≤ |t - ratOfKey kv.1|) ∧
        (k' = k ∨ ∃ s, (k', s) ∈ l) := by
  intro l
  induction l with
  | nil =>
    intro k dk hdk
    exact ⟨k, rfl, le_of_eq hdk.symm, by simp, Or.inl rfl⟩
  | cons kv rest ih =>
    intro k dk hdk
    by_cases hlt : |t - ratOfKey kv.1| < dk
    · obtain ⟨k', heq, hle, hall, hmem⟩ := ih kv.1 |t - ratOfKey kv.1| rfl
      refine ⟨k', ?_, hle.trans hlt.le, ?_, ?_⟩
      · simp only [findClosestAux, if_pos hlt]
        exact heq
      · intro p hp
        rcases List.mem_cons.mp hp with rfl | hm
        · exact hle
        · exact hall p hm
      · rcases hmem with rfl | ⟨s, hs⟩
        · exact Or.inr ⟨kv.2, List.mem_cons_self _ _⟩
        · exact Or.inr ⟨s, List.mem_cons_of_mem _ hs⟩
    · obtain ⟨k', heq, hle, hall, hmem⟩ := ih k dk hdk
      refine ⟨k', ?_, hle, ?_, ?_⟩
      · simp only [findClosestAux, if_neg hlt]
        exact heq
      · intro p hp
        rcases List.mem_cons.mp hp with rfl | hm
        · exact hle.trans (not_lt.mp hlt)
        · exact hall p hm
      · rcases hmem with rfl | ⟨s, hs⟩
        · exact Or.inl rfl
        · exact Or.inr ⟨s, List.mem_cons_of_mem _ hs⟩

/-- The argmin loop from its empty accumulator. -/
theorem findClosestAux_min (t : ℚ) (l : List ((Nat × Nat) × String))
    (hne : l ≠ []) :
    ∃ k', findClosestAux t l none none = some k' ∧
      (∀ kv ∈ l, |t - ratOfKey k'| ≤ |t - ratOfKey kv.1|) ∧
      ∃ s, (k', s) ∈ l := by
  cases l with
  | nil => exact absurd rfl hne
  | cons kv rest =>
    obtain ⟨k', heq, hle, hall, hmem⟩ :=
      findClosestAux_spec t rest kv.1 |t - ratOfKey kv.1| rfl
    refine ⟨k', ?_, ?_, ?_⟩
    · simp only [findClosestAux]
      exact heq
    · intro p hp
      rcases List.mem_cons.mp hp with rfl | hm
      · exact hle
      · exact hall p hm
    · rcases hmem with rfl | ⟨s, hs⟩
      · exact ⟨kv.2, List.mem_cons_self _ _⟩
      · exact ⟨s, List.mem_cons_of_mem _ hs⟩

/-- Reducing by the gcd does not change the ratio. -/
theorem reduced_ratio_eq (w h : Nat) (hw : 0 < w) (hh : 0 < h) :
    ((w / Nat.gcd w h : ℕ) : ℚ) / ((h / Nat.gcd w h : ℕ) : ℚ) =
      (w : ℚ) / (h : ℚ) := by
  have hg : 0 < Nat.gcd w h := Nat.gcd_pos_of_pos_left h hw
  have hgq : (Nat.gcd w h : ℚ) ≠ 0 := Nat.cast_ne_zero.mpr hg.ne'
  have hhq : (h : ℚ) ≠ 0 := Nat.cast_ne_zero.mpr hh.ne'
  rw [Nat.cast_div (Nat.gcd_dvd_left w h) hgq,
    Nat.cast_div (Nat.gcd_dvd_right w h) hgq]
  field_simp

/-- C4: for positive `(w, h)`, `_convert_size_to_aspect_ratio` returns a
token of the supported table, and the token's ratio minimizes
`|w/h − token_ratio|` over the table. -/
theorem C4_aspect_ratio (w h : Nat) (hw : 0 < w) (hh : 0 < h) :
    ∃ k s, (k, s) ∈ supportedRatios ∧
      convert_size_to_aspect_ratio w h = s ∧
      ∀ kv ∈ supportedRatios,
        |(w : ℚ) / (h : ℚ) - ratOfKey k| ≤
          |(w : ℚ) / (h : ℚ) - ratOfKey kv.1| := by
  have hratio := reduced_ratio_eq w h hw hh
  simp only [convert_size_to_aspect_ratio]
  cases hl : ratioLookup supportedRatios (w / Nat.gcd w h, h / Nat.gcd w h) with
  | some tok =>
    refine ⟨(w / Nat.gcd w h, h / Nat.gcd w h), tok,
      ratioLookup_mem _ _ _ hl, rfl, ?_⟩
    intro kv _
    have hk : ratOfKey (w / Nat.gcd w h, h / Nat.gcd w h) = (w : ℚ) / (h : ℚ) := hratio
    rw [hk, sub_self, abs_zero]
    exact abs_nonneg _
  | none =>
    obtain ⟨k', heq, hall, s1, hs1⟩ :=
      findClosestAux_min (((w / Nat.gcd w h : ℕ) : ℚ) / ((h / Nat.gcd w h : ℕ) : ℚ))
        supportedRatios (by simp [supportedRatios])
    obtain ⟨s2, hl2, hmem2⟩ := mem_ratioLookup supportedRatios k' s1 hs1
    refine ⟨k', s2, hmem2, ?_, ?_⟩
    · simp only [heq, hl2]
    · intro kv hkv
      have := hall kv hkv
      rwa [hratio] at this

/-- Membership in the modelled `set.add`. -/
theorem mem_setAdd (s : List String) (y x : String) :
    x ∈ setAdd s y ↔ x ∈ s ∨ x = y := by
  by_cases h : y ∈ s
  · simp only [setAdd, if_pos h]
    constructor
    · exact fun hx => Or.inl hx
    · rintro (hx | rfl)
      · exact hx
      · exact h
  · simp [setAdd, if_neg h]

/-- Running a block of fresh, pairwise-distinct, non-empty ids through
the dedup state: the deque ends as the newest `dedupMaxlen` entries of
the concatenation (older entries are evicted), and the membership set
tracks the deque. -/
theorem processAll_fresh :
    ∀ (ys l s : List String), (l ++ ys).Nodup → (∀ y ∈ ys, y ≠ "") →
      (∀ x, x ∈ s ↔ x ∈ l) → l.length ≤ dedupMaxlen →
      (processAll ⟨l, s⟩ ys).recent_event_ids =
        (l ++ ys).drop (l.length + ys.length - dedupMaxlen) ∧
      (∀ x, x ∈ (processAll ⟨l, s⟩ ys).recent_event_set ↔
        x ∈ (processAll ⟨l, s⟩ ys).recent_event_ids) := by
  intro ys
  induction ys with
  | nil =>
    intro l s _ _ hset hlen
    have h0 : l.length - dedupMaxlen = 0 := by omega
    simpa [processAll, h0] using hset
  | cons y ys ih =>
    intro l s hnd hne hset hlen
    have hyne : y ≠ "" := hne y (List.mem_cons_self _ _)
    have hynl : y ∉ l := by
      intro hyl
      exact (List.nodup_append.mp hnd).2.2 hyl (List.mem_cons_self _ _)
    have hyns : y ∉ s := fun hys => hynl ((hset y).mp hys)
    have hrun : processAll ⟨l, s⟩ (y :: ys) =
        processAll (is_event_processed ⟨l, s⟩ y).2 ys := rfl
    have hnez : ∀ z ∈ ys, z ≠ "" := fun z hz => hne z (List.mem_cons_of_mem _ hz)
    by_cases hllt : l.length < dedupMaxlen
    · have harith : (l ++ [y]).length + ys.length - dedupMaxlen =
          l.length + (y :: ys).length - dedupMaxlen := by
        simp only [List.length_append, List.length_cons, List.length_nil]
        omega
      have hassoc : (l ++ [y]) ++ ys = l ++ y :: ys := by simp
      have hnd2 : ((l ++ [y]) ++ ys).Nodup := by rw [hassoc]; exact hnd
      have hlen2 : (l ++ [y]).length ≤ dedupMaxlen := by
        simp only [List.length_append, List.length_cons, List.length_nil]
        omega
      by_cases hcap : dedupMaxlen ≤ l.length + 1
      · have hstep : (is_event_processed ⟨l, s⟩ y).2 = ⟨l ++ [y], l ++ [y]⟩ := by
          simp [is_event_processed, hyne, hyns, dequeAppendCap, hllt, hcap]
        obtain ⟨hfifo, hmem⟩ := ih (l ++ [y]) (l ++ [y]) hnd2 hnez
          (fun _ => Iff.rfl) hlen2
        rw [hrun, hstep]
        exact ⟨by rw [hfifo, harith, hassoc], hmem⟩
      · have hstep : (is_event_processed ⟨l, s⟩ y).2 = ⟨l ++ [y], setAdd s y⟩ := by
          simp [is_event_processed, hyne, hyns, dequeAppendCap, hllt, hcap]
        have hset2 : ∀ x, x ∈ setAdd s y ↔ x ∈ l ++ [y] := by
          intro x
          rw [mem_setAdd, List.mem_append, List.mem_singleton]
          exact or_congr_left (hset x)
        obtain ⟨hfifo, hmem⟩ := ih (l ++ [y]) (setAdd s y) hnd2 hnez hset2 hlen2
        rw [hrun, hstep]
        exact ⟨by rw [hfifo, harith, hassoc], hmem⟩
    · have hleq : l.length = dedupMaxlen := le_antisymm hlen (not_lt.mp hllt)
      cases l with
      | nil =>
        rw [List.length_nil] at hleq
        exact absurd hleq.symm (by simp [dedupMaxlen])
      | cons hd tl =>
        have hlentl : (tl ++ [y]).length = dedupMaxlen := by
          simp only [List.length_append, List.length_cons, List.length_nil]
          simp only [List.length_cons] at hleq
          omega
        have hllt2 : ¬tl.length + 1 < dedupMaxlen := by
          simpa using hllt
        have hcap2 : dedupMaxlen ≤ tl.length + 1 := not_lt.mp hllt2
        have hstep : (is_event_processed ⟨hd :: tl, s⟩ y).2 =
            ⟨tl ++ [y], tl ++ [y]⟩ := by
          simp [is_event_processed, hyne, hyns, dequeAppendCap, hllt2, hcap2]
        have hnd2 : ((tl ++ [y]) ++ ys).Nodup := by
          have h1 : (tl ++ y :: ys).Nodup :=
            (List.nodup_cons.mp (by simpa using hnd)).2
          simpa using h1
        obtain ⟨hfifo, hmem⟩ := ih (tl ++ [y]) (tl ++ [y]) hnd2 hnez
          (fun _ => Iff.rfl) hlentl.le
        rw [hrun, hstep]
        refine ⟨?_, hmem⟩
        rw [hfifo]
        have h1 : (tl ++ [y]).length + ys.length - dedupMaxlen = ys.length := by
          rw [hlentl]
          omega
        have h2 : (hd :: tl).length + (y :: ys).length - dedupMaxlen =
            ys.length + 1 := by
          simp only [List.length_cons] at hleq ⊢
          omega
        have hassoc : (tl ++ [y]) ++ ys = tl ++ y :: ys := by simp
        have h3 : (hd :: tl) ++ y :: ys = hd :: (tl ++ y :: ys) := rfl
        rw [h1, h2, hassoc, h3, List.drop_succ_cons]

/-- The 5000 generated ids are pairwise distinct. -/
theorem freshIds_nodup : freshIds.Nodup := by
  unfold freshIds
  refine List.Nodup.map ?_ (List.nodup_range _)
  intro a b hab
  have h1 := congrArg (fun s => s.data.length) hab
  simpa using h1

/-- None of the generated ids is empty. -/
theorem freshIds_ne_empty : ∀ y ∈ freshIds, y ≠ "" := by
  intro y hy
  obtain ⟨n, _, rfl⟩ := List.mem_map.mp hy
  intro h
  have h1 := congrArg (fun s => s.data.length) h
  have h2 : ("" : String).data = [] := rfl
  simp [h2] at h1

/-- The id `"E"` is not among the generated ids. -/
theorem freshIds_not_E : "E" ∉ freshIds := by
  intro hmem
  obtain ⟨n, _, heq⟩ := List.mem_map.mp hmem
  have hd : List.replicate (n + 1) 'a' = ['E'] := by
    have h1 := congrArg String.data heq
    simpa using h1
  have hlen : n + 1 = 1 := by simpa using congrArg List.length hd
  obtain rfl : n = 0 := by omega
  simp [List.replicate] at hd

/-- There are 5000 generated ids. -/
theorem freshIds_length : freshIds.length = dedupMaxlen := by
  simp [freshIds]

/-- C1 counterexample: the dedup FIFO is bounded, so an id is not
deduplicated forever.  After `"E"` is recorded, processing 5000 further
distinct non-empty ids evicts it, and a redelivery of `"E"` is treated
as new: `is_event_processed` returns `False` for the same id twice,
refuting at-most-once dispatch over the whole process lifetime. -/
theorem C1_counterexample :
    (is_event_processed ⟨[], []⟩ "E").1 = false ∧
    (is_event_processed
      (processAll (is_event_processed ⟨[], []⟩ "E").2 freshIds) "E").1 = false := by
  have hstep : is_event_processed ⟨[], []⟩ "E" = (false, ⟨["E"], ["E"]⟩) := by
    with_unfolding_all rfl
  refine ⟨by rw [hstep], ?_⟩
  rw [hstep]
  have hnd : ((["E"] : List String) ++ freshIds).Nodup := by
    rw [List.singleton_append]
    exact List.nodup_cons.mpr ⟨freshIds_not_E, freshIds_nodup⟩
  have hlen1 : (["E"] : List String).length ≤ dedupMaxlen := by
    rw [show (["E"] : List String).length = 1 from rfl]
    norm_num [dedupMaxlen]
  obtain ⟨hfifo, hset⟩ := processAll_fresh freshIds ["E"] ["E"]
    hnd freshIds_ne_empty (fun _ => Iff.rfl) hlen1
  have harith : (["E"] : List String).length + freshIds.length - dedupMaxlen = 1 := by
    rw [freshIds_length, show (["E"] : List String).length = 1 from rfl]
    omega
  have hfifo2 : (processAll ⟨["E"], ["E"]⟩ freshIds).recent_event_ids = freshIds := by
    rw [hfifo, harith, List.singleton_append, List.drop_succ_cons,
      List.drop_zero]
  have hnotin : "E" ∉ (processAll ⟨["E"], ["E"]⟩ freshIds).recent_event_set := by
    rw [hset "E", hfifo2]
    exact freshIds_not_E
  simp [is_event_processed, hnotin]

/-- C1 amended: each nonempty `event_id` is dispatched at most once
while it remains in the bounded dedup set: a fresh nonempty id's first
call returns `False` and records it (the event is dispatched); any call
while the id is in the set returns `True` with the state unchanged (the
delivery is acknowledged without dispatch); and the id stays in the set
as long as the FIFO has not yet reached its 5000-entry capacity.  Once
5000 or more further distinct ids arrive, the id can be evicted, after
which a redelivery is dispatched again. -/
theorem C1_amended :
    (∀ (st : DedupState) (e : String), e ≠ "" → e ∉ st.recent_event_set →
      (is_event_processed st e).1 = false ∧
      e ∈ (is_event_processed st e).2.recent_event_set) ∧
    (∀ (st : DedupState) (e : String), e ≠ "" → e ∈ st.recent_event_set →
      is_event_processed st e = (true, st)) ∧
    (∀ (st : DedupState) (e : String) (ys : List String), DedupInv st →
      e ∈ st.recent_event_set →
      st.recent_event_ids.length + ys.length ≤ dedupMaxlen →
      e ∈ (processAll st ys).recent_event_set) := by
  refine ⟨?_, ?_, ?_⟩
  · intro st e hne hnotin
    have hstep : (is_event_processed st e).2 =
        ⟨dequeAppendCap st.recent_event_ids e,
          if dedupMaxlen ≤ (dequeAppendCap st.recent_event_ids e).length then
            dequeAppendCap st.recent_event_ids e
          else setAdd st.recent_event_set e⟩ := by
      simp [is_event_processed, hne, hnotin]
    refine ⟨by simp [is_event_processed, hne, hnotin], ?_⟩
    rw [hstep]
    by_cases hcap : dedupMaxlen ≤ (dequeAppendCap st.recent_event_ids e).length
    · simp only [if_pos hcap]
      unfold dequeAppendCap
      by_cases h2 : st.recent_event_ids.length < dedupMaxlen <;> simp [h2]
    · simp only [if_neg hcap, mem_setAdd]
      exact Or.inr trivial
  · intro st e hne hmem
    simp [is_event_processed, hne, hmem]
  · intro st e ys
    induction ys generalizing st with
    | nil =>
      intro _ hmem _
      simpa [processAll] using hmem
    | cons y ys ih =>
      intro hinv hmem hlen
      have hrun : processAll st (y :: ys) =
          processAll (is_event_processed st y).2 ys := rfl
      have hlen2 : st.recent_event_ids.length + ys.length ≤ dedupMaxlen := by
        simp only [List.length_cons] at hlen
        omega
      by_cases hy0 : y = ""
      · have hid : (is_event_processed st y).2 = st := by
          simp [is_event_processed, hy0]
        rw [hrun, hid]
        exact ih st hinv hmem hlen2
      · by_cases hyin : y ∈ st.recent_event_set
        · have hid : (is_event_processed st y).2 = st := by
            simp [is_event_processed, hy0, hyin]
          rw [hrun, hid]
          exact ih st hinv hmem hlen2
        · have hlt : st.recent_event_ids.length < dedupMaxlen := by
            simp only [List.length_cons] at hlen
            omega
          have hids : dequeAppendCap st.recent_event_ids y =
              st.recent_event_ids ++ [y] := by
            simp [dequeAppendCap, hlt]
          have hlenapp : (st.recent_event_ids ++ [y]).length =
              st.recent_event_ids.length + 1 := by
            simp
          have hstep : (is_event_processed st y).2 =
              ⟨st.recent_event_ids ++ [y],
                if dedupMaxlen ≤ st.recent_event_ids.length + 1 then
                  st.recent_event_ids ++ [y]
                else setAdd st.recent_event_set y⟩ := by
            simp [is_event_processed, hy0, hyin, hids]
          rw [hrun, hstep]
          have hlen3 : (st.recent_event_ids ++ [y]).length + ys.length ≤
              dedupMaxlen := by
            rw [hlenapp]
            simp only [List.length_cons] at hlen
            omega
          by_cases hcap : dedupMaxlen ≤ st.recent_event_ids.length + 1
          · have hinv2 : DedupInv
                ⟨st.recent_event_ids ++ [y], st.recent_event_ids ++ [y]⟩ :=
              ⟨fun _ => Iff.rfl, by rw [hlenapp]; omega⟩
            have hmem2 : e ∈ st.recent_event_ids ++ [y] :=
              List.mem_append.mpr (Or.inl ((hinv.1 e).mp hmem))
            simpa only [if_pos hcap] using
              ih ⟨st.recent_event_ids ++ [y], st.recent_event_ids ++ [y]⟩
                hinv2 hmem2 hlen3
          · have hinv2 : DedupInv
                ⟨st.recent_event_ids ++ [y], setAdd st.recent_event_set y⟩ := by
              constructor
              · intro x
                rw [mem_setAdd, List.mem_append, List.mem_singleton]
                exact or_congr_left (hinv.1 x)
              · rw [hlenapp]
                omega
            have hmem2 : e ∈ setAdd st.recent_event_set y :=
              (mem_setAdd _ _ _).mpr (Or.inl hmem)
            simpa only [if_neg hcap] using
              ih ⟨st.recent_event_ids ++ [y], setAdd st.recent_event_set y⟩
                hinv2 hmem2 hlen3

/-- Witness for C1 amended: all three conjuncts at concrete states. -/
theorem C1_amended_witness :
    ((is_event_processed ⟨[], []⟩ "X").1 = false ∧
      "X" ∈ (is_event_processed ⟨[], []⟩ "X").2.recent_event_set) ∧
    is_event_processed ⟨["X"], ["X"]⟩ "X" = (true, ⟨["X"], ["X"]⟩) ∧
    "X" ∈ (processAll ⟨["X"], ["X"]⟩ ["Y", "Z"]).recent_event_set := by
  refine ⟨C1_amended.1 ⟨[], []⟩ "X" (by decide) (by simp), ?_, ?_⟩
  · exact C1_amended.2.1 ⟨["X"], ["X"]⟩ "X" (by decide) (by simp)
  · refine C1_amended.2.2 ⟨["X"], ["X"]⟩ "X" ["Y", "Z"]
      ⟨fun _ => Iff.rfl, ?_⟩ (by simp) ?_
    · rw [show (["X"] : List String).length = 1 from rfl]
      norm_num [dedupMaxlen]
    · rw [show (["X"] : List String).length = 1 from rfl,
        show (["Y", "Z"] : List String).length = 2 from rfl]
      norm_num [dedupMaxlen]

/-- Once the companion task is cancelled, it can never emit the
thinking message. -/
theorem rwt_cancelled_no_think :
    ∀ (tr : List REv) (s s' : RwtState), s.cancelled = true →
      rwtRun s tr = some s' → REv.tThinkSent ∉ tr := by
  intro tr
  induction tr with
  | nil =>
    intro s s' _ _ h
    simp at h
  | cons e rest ih =>
    intro s s' hc hrun hmem
    rw [rwtRun] at hrun
    cases hstep : rwtStep s e with
    | none =>
      rw [hstep] at hrun
      exact absurd hrun (by simp)
    | some s1 =>
      rw [hstep] at hrun
      rcases List.mem_cons.mp hmem with rfl | hmem2
      · simp only [rwtStep] at hstep
        split at hstep
        · simp_all
        · exact Option.noConfusion hstep
      · have hc1 : s1.cancelled = true := by
          cases e <;> simp only [rwtStep] at hstep <;> split at hstep <;>
            (try exact Option.noConfusion hstep) <;>
            (obtain rfl := Option.some_inj.mp hstep) <;> simp_all
        exact ih s1 s' hc1 hrun hmem2

/-- Every step preserves "cancelled implies done". -/
theorem rwtStep_cd (e : REv) (s s1 : RwtState)
    (hcd : s.cancelled = true → s.done = true)
    (hstep : rwtStep s e = some s1) : s1.cancelled = true → s1.done = true := by
  cases e <;> simp only [rwtStep] at hstep <;> split at hstep <;>
    (try exact Option.noConfusion hstep) <;>
    (obtain rfl := Option.some_inj.mp hstep) <;> simp_all

/-- In any legal interleaving of `run_with_thinking`, a thinking
emission is preceded by a timer expiry, and the completion signal
(`done.set()` with its synchronous cancel) has not occurred anywhere
before that expiry. -/
theorem rwt_think_needs_expiry :
    ∀ (tr : List REv) (s s' : RwtState),
      (s.cancelled = true → s.done = true) →
      rwtRun s tr = some s' → REv.tThinkSent ∈ tr →
      (s.tpc = .expired ∧ s.cancelled = false) ∨
      ∃ a b, tr = a ++ REv.tExpire :: b ∧ REv.mFinish ∉ a ∧
        REv.tThinkSent ∈ b := by
  intro tr
  induction tr with
  | nil =>
    intro s s' _ _ h
    simp at h
  | cons e rest ih =>
    intro s s' hcd hrun hmem
    rw [rwtRun] at hrun
    cases hstep : rwtStep s e with
    | none =>
      rw [hstep] at hrun
      exact absurd hrun (by simp)
    | some s1 =>
      rw [hstep] at hrun
      by_cases he : e = REv.tThinkSent
      · subst he
        simp only [rwtStep] at hstep
        split at hstep
        · rename_i hguard
          exact Or.inl ⟨hguard.1, hguard.2.2⟩
        · exact Option.noConfusion hstep
      · have hmem2 : REv.tThinkSent ∈ rest := by
          rcases List.mem_cons.mp hmem with rfl | h2
          · exact absurd rfl he
          · exact h2
        by_cases hef : e = REv.mFinish
        · subst hef
          simp only [rwtStep] at hstep
          split at hstep
          · obtain rfl := Option.some_inj.mp hstep
            exact absurd hmem2
              (rwt_cancelled_no_think rest _ s' (by simp) hrun)
          · exact absurd hstep (by simp)
        · rcases ih s1 s' (rwtStep_cd e s s1 hcd hstep) hrun hmem2 with
            ⟨hpc, hcf⟩ | ⟨a, b, rfl, hnf, hts⟩
          · by_cases hee : e = REv.tExpire
            · subst hee
              exact Or.inr ⟨[], rest, rfl, by simp, hmem2⟩
            · left
              cases e <;> simp only [rwtStep] at hstep <;> split at hstep <;>
                (try exact Option.noConfusion hstep) <;>
                (obtain rfl := Option.some_inj.mp hstep) <;> simp_all
          · refine Or.inr ⟨e :: a, b, rfl, ?_, hts⟩
            simp only [List.mem_cons, not_or]
            exact ⟨fun h => hef h.symm, hnf⟩

/-- C8 counterexample: a legal asyncio interleaving of
`run_with_thinking` in which the main reply's chat effect lands before
the thinking message.  The LLM call finishes just under the delay; the
reply send is in flight (its effect already on the server) when the
timeout fires, `done` is still unset, so the companion emits the
thinking message after the reply — refuting "the thinking-indicator
message, if emitted, is always sent strictly before the main reply". -/
theorem C8_counterexample :
    rwtRun (rwtInit true)
      [REv.mLlmDone, REv.mReplySent, REv.tExpire, REv.tThinkSent,
       REv.tThinkEnd, REv.mFinish] =
      some ⟨.finished, .ended, true, true, true⟩ ∧
    [REv.mLlmDone, REv.mReplySent, REv.tExpire, REv.tThinkSent,
       REv.tThinkEnd, REv.mFinish].indexOf REv.mReplySent = 1 ∧
    [REv.mLlmDone, REv.mReplySent, REv.tExpire, REv.tThinkSent,
       REv.tThinkEnd, REv.mFinish].indexOf REv.tThinkSent = 3 := by
  refine ⟨?_, ?_, ?_⟩ <;> with_unfolding_all rfl

/-- C8 amended: the thinking message is never emitted when the main
task completes within the delay — a thinking emission requires a prior
timer expiry, and the completion signal (with its synchronous
cancellation) must not have occurred anywhere before that expiry.
Strict thinking-before-reply ordering, however, is not guaranteed
(see the counterexample): the timer may expire while the reply send is
already in flight. -/
theorem C8_amended (enable : Bool) (tr : List REv) (s' : RwtState)
    (hrun : rwtRun (rwtInit enable) tr = some s')
    (hmem : REv.tThinkSent ∈ tr) :
    ∃ a b, tr = a ++ REv.tExpire :: b ∧ REv.mFinish ∉ a ∧
      REv.tThinkSent ∈ b := by
  rcases rwt_think_needs_expiry tr (rwtInit enable) s' (by simp [rwtInit])
    hrun hmem with ⟨hpc, _⟩ | hsplit
  · exact absurd hpc (by simp [rwtInit])
  · exact hsplit

/-- Witness for C8 amended: the shortest emitting schedule. -/
theorem C8_amended_witness :
    ∃ a b, [REv.tExpire, REv.tThinkSent] = a ++ REv.tExpire :: b ∧
      REv.mFinish ∉ a ∧ REv.tThinkSent ∈ b :=
  C8_amended true [REv.tExpire, REv.tThinkSent]
    ⟨.working, .emitted, false, false, true⟩ (by with_unfolding_all rfl)
    (by simp)

/-- A successful inline-data scan yields non-empty base64 payload. -/
theorem firstInlineData_ne_empty :
    ∀ (ps : List (Option String)) (d : String),
      firstInlineData ps = some d → d ≠ "" := by
  intro ps
  induction ps with
  | nil =>
    intro d h
    simp [firstInlineData] at h
  | cons p rest ih =>
    intro d h
    cases p with
    | none =>
      exact ih d (by simpa [firstInlineData] using h)
    | some x =>
      by_cases hx : x = ""
      · exact ih d (by simpa [firstInlineData, hx] using h)
      · simp only [firstInlineData, if_neg hx] at h
        obtain rfl := Option.some_inj.mp h
        exact hx

/-- Every error string `generate_image` can produce is either the
fixed no-config notice or an instance of the `MSG_DRAW_ERROR`
template. -/
theorem generate_image_error_shape (c : Bool) (a : ImageApiResult)
    (b : Option String) (e : String)
    (h : generate_image_outcome c a = (b, some e)) :
    e = MSG_DRAW_NO_CONFIG ∨ ∃ e0, e = msg_draw_error e0 := by
  by_cases hc : c
  · cases a with
    | timeout =>
      simp [generate_image_outcome, hc] at h
      exact Or.inr ⟨_, h.2.symm⟩
    | exc m =>
      simp [generate_image_outcome, hc] at h
      exact Or.inr ⟨_, h.2.symm⟩
    | httpErr status body =>
      simp [generate_image_outcome, hc] at h
      exact Or.inr ⟨_, h.2.symm⟩
    | okNoChoices =>
      simp [generate_image_outcome, hc] at h
      exact Or.inr ⟨_, h.2.symm⟩
    | okNoMulti =>
      simp [generate_image_outcome, hc] at h
      exact Or.inr ⟨_, h.2.symm⟩
    | okParts ps =>
      cases hf : firstInlineData ps with
      | none =>
        simp [generate_image_outcome, hc, hf] at h
        exact Or.inr ⟨_, h.2.symm⟩
      | some d =>
        simp [generate_image_outcome, hc, hf] at h
  · simp [generate_image_outcome, hc] at h
    exact Or.inl h.2.symm

/-- C9 counterexample: an image-model HTTP 500 whose body does not
parse as JSON. `generate_image` formats the raw body into
`MSG_DRAW_ERROR` and `handle_draw_request` sends it to the chat, so a
chat message contains the raw provider error text, refuting "never
leak raw provider errors into the chat". -/
theorem C9_counterexample :
    outbound (handle_draw_request ⟨"群助手", "", "", 600, true⟩
      ⟨0, "", "", false, "", fun _ => none, fun _ => [],
        .httpErr 500 (.notJson "Internal boom"), ("", "")⟩
      "c" "画一只猫" []) =
      [Act.sendText "c" MSG_DRAWING,
       Act.sendText "c" "绘图失败: Internal boom"] ∧
    strContains "绘图失败: Internal boom" "Internal boom" = true := by
  constructor <;> with_unfolding_all rfl

/-- C9 amended: when the draw pipeline fails (no image message is
delivered), `handle_draw_request` sends the drawing announcement
followed by exactly one error text, drawn from the fixed templates —
but the HTTP-error / exception / parse-failure template
(`MSG_DRAW_ERROR`) and the upload-failure reply interpolate the
upstream error string, so raw provider text can reach the chat; only
the no-config, missing-bytes and timeout messages are fully fixed. -/
theorem C9_amended (cfg : Config) (env : Env) (chat text : String)
    (imgs : List String)
    (hfail : ∀ k, Act.sendImage chat k ∉
      handle_draw_request cfg env chat text imgs) :
    ∃ m, (outbound (handle_draw_request cfg env chat text imgs) =
        [Act.sendText chat MSG_DRAWING, Act.sendText chat m] ∨
      outbound (handle_draw_request cfg env chat text imgs) =
        [Act.sendText chat MSG_DRAWING, Act.uploadImage,
         Act.sendText chat m]) ∧
      (m = MSG_DRAW_NO_CONFIG ∨ (∃ e0, m = msg_draw_error e0) ∨
        m = "图片生成失败，请稍后重试" ∨
        ∃ e0, m = "图片上传失败: " ++ e0) := by
  cases hgen : generate_image_outcome cfg.imageConfigured env.imageApi with
  | mk bytesO errO =>
    cases errO with
    | some err =>
      refine ⟨err, Or.inl ?_, ?_⟩
      · simp only [handle_draw_request, hgen]
        by_cases hc : cfg.imageConfigured <;>
          simp [outbound, isOutbound, hc, List.filter_append]
      · rcases generate_image_error_shape _ _ _ _ hgen with h | ⟨e0, h⟩
        · exact Or.inl h
        · exact Or.inr (Or.inl ⟨e0, h⟩)
    | none =>
      cases bytesO with
      | none =>
        refine ⟨"图片生成失败，请稍后重试", Or.inl ?_,
          Or.inr (Or.inr (Or.inl rfl))⟩
        simp only [handle_draw_request, hgen]
        by_cases hc : cfg.imageConfigured <;>
          simp [outbound, isOutbound, hc, List.filter_append]
      | some d =>
        have hd : d ≠ "" := by
          by_cases hc : cfg.imageConfigured
          · cases a : env.imageApi <;> rw [a] at hgen <;>
              simp [generate_image_outcome, hc] at hgen
            rename_i ps
            cases hf : firstInlineData ps with
            | none => simp [hf] at hgen
            | some d2 =>
              simp [hf] at hgen
              exact hgen ▸ firstInlineData_ne_empty ps d2 hf
          · simp [generate_image_outcome, hc] at hgen
        rcases henv : env.uploadResult with ⟨key, uerr⟩
        by_cases hu : uerr = ""
        · exfalso
          apply hfail key
          subst hu
          simp only [handle_draw_request, hgen, henv]
          by_cases hc : cfg.imageConfigured <;> simp [hd, hc]
        · refine ⟨"图片上传失败: " ++ uerr, Or.inr ?_,
            Or.inr (Or.inr (Or.inr ⟨uerr, rfl⟩))⟩
          simp only [handle_draw_request, hgen, henv]
          by_cases hc : cfg.imageConfigured <;>
            simp [hd, hu, outbound, isOutbound, hc, List.filter_append]

/-- Witness for C9 amended: a concrete image-model timeout. -/
theorem C9_amended_witness :
    ∃ m, (outbound (handle_draw_request ⟨"群助手", "", "", 600, true⟩
        ⟨0, "", "", false, "", fun _ => none, fun _ => [],
          .timeout, ("", "")⟩ "c" "画一只猫" []) =
        [Act.sendText "c" MSG_DRAWING, Act.sendText "c" m] ∨
      outbound (handle_draw_request ⟨"群助手", "", "", 600, true⟩
        ⟨0, "", "", false, "", fun _ => none, fun _ => [],
          .timeout, ("", "")⟩ "c" "画一只猫" []) =
        [Act.sendText "c" MSG_DRAWING, Act.uploadImage,
         Act.sendText "c" m]) ∧
      (m = MSG_DRAW_NO_CONFIG ∨ (∃ e0, m = msg_draw_error e0) ∨
        m = "图片生成失败，请稍后重试" ∨
        ∃ e0, m = "图片上传失败: " ++ e0) :=
  C9_amended ⟨"群助手", "", "", 600, true⟩
    ⟨0, "", "", false, "", fun _ => none, fun _ => [], .timeout, ("", "")⟩
    "c" "画一只猫" [] (by
      intro k
      rw [show handle_draw_request ⟨"群助手", "", "", 600, true⟩
          ⟨0, "", "", false, "", fun _ => none, fun _ => [],
            .timeout, ("", "")⟩ "c" "画一只猫" [] =
          [Act.sendText "c" MSG_DRAWING, Act.imageGenCall,
           Act.sendText "c" (msg_draw_error "请求超时，请稍后重试")] from by
        with_unfolding_all rfl]
      simp)

/-- A positive silence check means the stripped text is non-empty. -/
theorem should_zip_reply_nonempty (t : String)
    (h : should_zip_reply t = true) : pyStrip t ≠ "" := by
  intro he
  simp [should_zip_reply, he] at h

/-- C7 counterexample: the event `"/help 别说话"` satisfies every
hypothesis of the claim (group chat, sticky-active, no mention, no
mention of someone else, silence phrase contained in the stripped
text), yet the command branch runs first and the handler sends the
help text, not the single zip emoji. -/
theorem C7_counterexample :
    mentioned_bot ⟨"群助手", "", "", 600, false⟩
      ⟨"c", "u", "/help 别说话", "/help 别说话", [], "text", "group",
        "m1", [], "user", ""⟩ = false ∧
    mentions_someone_else ⟨"群助手", "", "", 600, false⟩
      ⟨"c", "u", "/help 别说话", "/help 别说话", [], "text", "group",
        "m1", [], "user", ""⟩ = false ∧
    is_conversation_active 50 (fun _ => 100) "c" = true ∧
    should_zip_reply "/help 别说话" = true ∧
    outbound (handle_message_event ⟨"群助手", "", "", 600, false⟩
      ⟨50, "01-01 00:00", "r", false, "", fun _ => none, fun _ => [],
        .timeout, ("", "")⟩
      ⟨fun _ => [], fun _ => 100, ⟨false, []⟩⟩
      ⟨"c", "u", "/help 别说话", "/help 别说话", [], "text", "group",
        "m1", [], "user", ""⟩).2 =
      [Act.sendText "c" helpText] ∧
    helpText ≠ "🤐" := by
  refine ⟨?_, ?_, ?_, ?_, ?_, ?_⟩
  · with_unfolding_all rfl
  · with_unfolding_all rfl
  · with_unfolding_all rfl
  · with_unfolding_all rfl
  · with_unfolding_all rfl
  · decide

/-- C7 amended: a group message that passes the gates, is not a
command (`"/"`-prefixed), mentions nobody, arrives in the sticky
window and contains a silence phrase is answered with exactly the
single `🤐` text; no LLM or image-model call happens and the sticky
window is refreshed to `now + CONVERSATION_TTL_SECONDS`. -/
theorem C7_amended (cfg : Config) (env : Env) (st : HState) (e : Event)
    (hsender : e.sender_type = "" ∨ e.sender_type = "user")
    (hbot : cfg.botUserId = "" ∨ e.user_id ≠ cfg.botUserId)
    (hchat : e.chat_id ≠ "")
    (hslash : ¬strLeads "/" e.text = true)
    (hment : mentioned_bot cfg e = false)
    (hgroup : e.chat_type = "group")
    (hactive : env.now ≤ st.activeUntil e.chat_id)
    (helse : mentions_someone_else cfg e = false)
    (hzip : should_zip_reply e.text = true) :
    outbound (handle_message_event cfg env st e).2 =
      [Act.sendText e.chat_id "🤐"] ∧
    Act.llmCall ∉ (handle_message_event cfg env st e).2 ∧
    Act.imageGenCall ∉ (handle_message_event cfg env st e).2 ∧
    (handle_message_event cfg env st e).1.activeUntil e.chat_id =
      env.now + cfg.ttl := by
  have htext : pyStrip e.text ≠ "" := should_zip_reply_nonempty e.text hzip
  have hg1 : ¬(e.sender_type ≠ "" ∧ e.sender_type ≠ "user") := by
    rcases hsender with h | h <;> simp [h]
  have hg2 : ¬(cfg.botUserId ≠ "" ∧ e.user_id = cfg.botUserId) := by
    rcases hbot with h | h <;> simp [h]
  have hg3 : ¬(e.chat_id = "" ∨ (pyStrip e.text = "" ∧ e.image_keys.isEmpty = true)) := by
    rintro (h | ⟨h1, _⟩)
    · exact hchat h
    · exact htext h1
  have hcmd : command_action env (appendLog env st e (text_for_store e)) e = none := by
    simp [command_action, hslash]
  have hactive2 : is_conversation_active env.now
      (appendLog env st e (text_for_store e)).activeUntil e.chat_id = true := by
    simp [is_conversation_active, appendLog, hchat, hactive]
  have hres : handle_message_event cfg env st e =
      ({ appendLog env st e (text_for_store e) with
          activeUntil := mark_conversation_active env.now cfg.ttl
            (appendLog env st e (text_for_store e)).activeUntil e.chat_id },
        [Act.dbSaveMessage e.chat_id e.user_id (text_for_store e),
         Act.sendText e.chat_id "🤐"]) := by
    simp only [handle_message_event, hg1, hg2, hg3, hcmd, hment, hgroup,
      hactive2, helse, hzip, if_false, Bool.false_eq_true, ite_false]
    simp
  rw [hres]
  refine ⟨by simp [outbound, isOutbound], by simp, by simp, ?_⟩
  simp [mark_conversation_active, hchat]

/-- Witness for C7 amended: a concrete sticky-window silence phrase in
a group chat. -/
theorem C7_amended_witness :
    outbound (handle_message_event ⟨"群助手", "", "", 600, false⟩
      ⟨50, "01-01 00:00", "r", false, "", fun _ => none, fun _ => [],
        .timeout, ("", "")⟩
      ⟨fun _ => [], fun _ => 100, ⟨false, []⟩⟩
      ⟨"c", "u", "别说话", "别说话", [], "text", "group", "m1", [],
        "user", ""⟩).2 = [Act.sendText "c" "🤐"] :=
  (C7_amended _ _ _ _ (Or.inr rfl) (Or.inl rfl) (by decide)
    (by with_unfolding_all decide) (by with_unfolding_all rfl) rfl
    (by decide) (by with_unfolding_all rfl)
    (by with_unfolding_all rfl)).1

/-- C2 counterexample: a chat whose stored settings are `mode = quiet`,
an event that is no bot mention, a sticky window that has expired — and
still the handler sends an outbound message, because the `/help`
command branch runs before the quiet-mode check. -/
theorem C2_counterexample :
    (get_or_create_settings ⟨true, [("c", ⟨"quiet", 13/20⟩)]⟩ "c"
      ENGAGE_DEFAULT).1.mode = "quiet" ∧
    mentioned_bot ⟨"群助手", "", "", 600, false⟩
      ⟨"c", "u", "/help", "/help", [], "text", "group", "m1", [],
        "user", ""⟩ = false ∧
    is_conversation_active 50 (fun _ => 0) "c" = false ∧
    outbound (handle_message_event ⟨"群助手", "", "", 600, false⟩
      ⟨50, "01-01 00:00", "r", false, "", fun _ => none, fun _ => [],
        .timeout, ("", "")⟩
      ⟨fun _ => [], fun _ => 0, ⟨true, [("c", ⟨"quiet", 13/20⟩)]⟩⟩
      ⟨"c", "u", "/help", "/help", [], "text", "group", "m1", [],
        "user", ""⟩).2 = [Act.sendText "c" helpText] ∧
    [Act.sendText "c" helpText] ≠ ([] : List Act) := by
  refine ⟨?_, ?_, ?_, ?_, ?_⟩
  · with_unfolding_all rfl
  · with_unfolding_all rfl
  · with_unfolding_all rfl
  · with_unfolding_all rfl
  · simp

/-- C2 amended: with `mode = quiet`, no bot mention, an expired sticky
window and a text that is not a `/` command, `handle_message_event`
performs no outbound chat call (it may still persist the message). -/
theorem C2_amended (cfg : Config) (env : Env) (st : HState) (e : Event)
    (hquiet : (get_or_create_settings st.db e.chat_id ENGAGE_DEFAULT).1.mode
      = "quiet")
    (hment : mentioned_bot cfg e = false)
    (hactive : is_conversation_active env.now st.activeUntil e.chat_id = false)
    (hslash : ¬strLeads "/" e.text = true) :
    outbound (handle_message_event cfg env st e).2 = [] := by
  by_cases hg1 : e.sender_type ≠ "" ∧ e.sender_type ≠ "user"
  · simp [handle_message_event, hg1, outbound]
  by_cases hg2 : cfg.botUserId ≠ "" ∧ e.user_id = cfg.botUserId
  · simp [handle_message_event, hg1, hg2, outbound]
  by_cases hg3 : e.chat_id = "" ∨ (pyStrip e.text = "" ∧ e.image_keys.isEmpty = true)
  · have hg3n : e.chat_id = "" ∨ (pyStrip e.text = "" ∧ e.image_keys = []) := by
      simpa using hg3
    simp [handle_message_event, hg1, hg2, hg3n, outbound]
  have hcmd : command_action env (appendLog env st e (text_for_store e)) e = none := by
    simp [command_action, hslash]
  have hactive2 : is_conversation_active env.now
      (appendLog env st e (text_for_store e)).activeUntil e.chat_id = false := by
    simpa [appendLog] using hactive
  rcases hset : get_or_create_settings
      (appendLog env st e (text_for_store e)).db e.chat_id ENGAGE_DEFAULT
    with ⟨srow, db2⟩
  have hmode : srow.mode = "quiet" := by
    have hdb : (appendLog env st e (text_for_store e)).db = st.db := by
      simp [appendLog]
    rw [hdb] at hset
    rw [hset] at hquiet
    exact hquiet
  simp only [handle_message_event, hg1, hg2, hg3, hcmd, hment, hactive2,
    hset, hmode, if_false, Bool.false_eq_true, ite_false]
  simp [outbound, isOutbound]

/-- Witness for C2 amended: a concrete quiet chat, plain text, expired
window. -/
theorem C2_amended_witness :
    outbound (handle_message_event ⟨"群助手", "", "", 600, false⟩
      ⟨50, "01-01 00:00", "r", false, "", fun _ => none, fun _ => [],
        .timeout, ("", "")⟩
      ⟨fun _ => [], fun _ => 0, ⟨true, [("c", ⟨"quiet", 13/20⟩)]⟩⟩
      ⟨"c", "u", "今天天气不错", "今天天气不错", [], "text", "group",
        "m1", [], "user", ""⟩).2 = [] :=
  C2_amended _ _ _ _ (by with_unfolding_all rfl) (by with_unfolding_all rfl)
    (by with_unfolding_all rfl) (by with_unfolding_all decide)

/-- C6: in the `/settings threshold <v>` branch, a parsed float is
clamped to `[0, 1]` before being persisted and confirmed; a
non-parsing argument changes nothing and replies with the
threshold-error message. -/
theorem C6_threshold_clamp (env : Env) (st : HState) (e : Event)
    (v0 : String) (rest : List String)
    (hslash : strLeads "/" e.text = true)
    (hsplit : pySplitWs (pyStrip e.text) =
      "/settings" :: "threshold" :: v0 :: rest) :
    (∀ x, pyFloat? (pyToLower v0) = some x →
      command_action env st e =
        some ({ st with db :=
            update_settings_threshold st.db e.chat_id (max 0 (min 1 x)) },
          [Act.dbSetThreshold e.chat_id (max 0 (min 1 x)),
           Act.sendText e.chat_id (thresholdSetText (max 0 (min 1 x)))]) ∧
      0 ≤ max 0 (min 1 x) ∧ max 0 (min 1 x) ≤ 1) ∧
    (pyFloat? (pyToLower v0) = none →
      command_action env st e =
        some (st, [Act.sendText e.chat_id thresholdErrText])) := by
  have h1 : pyToLower "/settings" = "/settings" := by with_unfolding_all rfl
  have h2 : pyToLower "threshold" = "threshold" := by with_unfolding_all rfl
  constructor
  · intro x hx
    refine ⟨?_, le_max_left 0 _, max_le (by norm_num) (min_le_left 1 x)⟩
    simp [command_action, hslash, hsplit, h1, h2, hx]
  · intro hx
    simp [command_action, hslash, hsplit, h1, h2, hx]

/-- Witness for C6: the concrete command `/settings threshold 2.5`
parses to `5/2` and is clamped to `1`. -/
theorem C6_threshold_clamp_witness :
    command_action
      ⟨50, "01-01 00:00", "r", false, "", fun _ => none, fun _ => [],
        .timeout, ("", "")⟩
      ⟨fun _ => [], fun _ => 0, ⟨true, []⟩⟩
      ⟨"c", "u", "/settings threshold 2.5", "/settings threshold 2.5",
        [], "text", "group", "m1", [], "user", ""⟩ =
      some ((⟨fun _ => [], fun _ => 0,
          update_settings_threshold ⟨true, []⟩ "c" 1⟩ : HState),
        [Act.dbSetThreshold "c" 1, Act.sendText "c" (thresholdSetText 1)]) ∧
    (0 : ℚ) ≤ 1 ∧ (1 : ℚ) ≤ 1 := by
  have h := (C6_threshold_clamp
    ⟨50, "01-01 00:00", "r", false, "", fun _ => none, fun _ => [],
      .timeout, ("", "")⟩
    ⟨fun _ => [], fun _ => 0, ⟨true, []⟩⟩
    ⟨"c", "u", "/settings threshold 2.5", "/settings threshold 2.5",
      [], "text", "group", "m1", [], "user", ""⟩
    "2.5" [] (by with_unfolding_all rfl)
    (by with_unfolding_all rfl)).1 (5/2) (by with_unfolding_all rfl)
  have hc : max (0 : ℚ) (min 1 (5/2)) = 1 := by
    rw [min_def, max_def]
    norm_num
  rw [hc] at h
  exact h

/-- Witness for C4: the aspect-ratio choice at the concrete size
`1000 × 750`. -/
theorem C4_aspect_ratio_witness :
    (0 < 1000 ∧ 0 < 750) ∧
    (∃ k s, (k, s) ∈ supportedRatios ∧
      convert_size_to_aspect_ratio 1000 750 = s ∧
      ∀ kv ∈ supportedRatios,
        |((1000 : ℕ) : ℚ) / ((750 : ℕ) : ℚ) - ratOfKey k| ≤
          |((1000 : ℕ) : ℚ) / ((750 : ℕ) : ℚ) - ratOfKey kv.1|) :=
  ⟨⟨by decide, by decide⟩, C4_aspect_ratio 1000 750 (by decide) (by decide)⟩
